import Mathlib
set_option linter.all false
/- Verification development for the credential / key-cache coordination
   logic of the Utilities repository: the JWT signing-key cache client
   (src/util/auth0Client.ts) and the socket credential refresher
   (src/util/authSocket.ts together with its variant src/unnamed/part_000).
   Asynchronous methods are embedded as small-step machines whose atomic
   segments are the maximal await-free stretches of the source; single
   calls on an idle instance are additionally embedded as plain
   functions. -/
/-- Pointwise update of a task table indexed by task id. -/
def updT {α : Type} (f : Nat → α) (j : Nat) (v : α) : Nat → α :=
  fun i => if i = j then v else f i
deriving instance DecidableEq for Except
namespace Auth0
/-- A JSON Web Key descriptor as fetched from the jwks endpoint
(interface AUTH0_JWK in src/util/auth0Client.ts). String fields model JS
strings, where a missing field is the empty string; a missing x5c chain is
the empty list. -/
structure JWK where
  kty : String
  kid : String
  alg : String
  use : String
  x5c : List String
  n : String
  e : String
deriving DecidableEq
/-- The JWKS cache: insertion-ordered key/value pairs mirroring the JS Map
from kid to public key. -/
abbrev JwksMap := List (String × String)
/-- JS Map.get (and Map.has via isSome). -/
def jwksFind : JwksMap → String → Option String
  | [], _ => none
  | (k, v) :: rest, key => if k = key then some v else jwksFind rest key
/-- JS Map.set: overwrite an existing kid in place, else append. -/
def jwksSet : JwksMap → String → String → JwksMap
  | [], key, v => [(key, v)]
  | (k, w) :: rest, key, v =>
    if k = key then (key, v) :: rest else (k, w) :: jwksSet rest key v
/-- Split a character list into runs of at most 64 characters, as the JS
regex match in certToPEM does. -/
def chunkBy64 : List Char → List String
  | [] => []
  | c :: cs => String.mk ((c :: cs).take 64) :: chunkBy64 ((c :: cs).drop 64)
termination_by l => l.length
decreasing_by simp [List.length_drop]; omega
/-- Auth0Client.certToPEM: wrap a base64 certificate into PEM framing,
breaking the body every 64 characters. (On the empty string the JS match
returns null and the source would throw before framing; no claim evaluates
that input.) -/
def certToPEM (cert : String) : String :=
  "-----BEGIN CERTIFICATE-----\n" ++
    String.intercalate "\n" (chunkBy64 cert.toList) ++
    "\n-----END CERTIFICATE-----\n"
/-- The usability filter applied to each fetched key in
Auth0Client.updateKeyCache: use is sig, kty is RSA, kid truthy (nonempty),
and either a nonempty x5c chain or both n and e nonempty. -/
def passFilter (k : JWK) : Bool :=
  k.use == "sig" && k.kty == "RSA" && k.kid != "" &&
    (!k.x5c.isEmpty || (k.n != "" && k.e != ""))
/-- The per-key loop of updateKeyCache, processing fetched keys in order
into the cleared map. A key passing the filter with an empty x5c (possible
when n and e are nonempty) makes the source call certToPEM on undefined,
which throws mid-rebuild; the error value carries the partially built
map. -/
def runKeys : List JWK → JwksMap → Except JwksMap JwksMap
  | [], m => .ok m
  | k :: rest, m =>
    if passFilter k then
      match k.x5c.head? with
      | some c => runKeys rest (jwksSet m k.kid (certToPEM c))
      | none => .error m
    else runKeys rest m
/-- The cache-bearing fields of Auth0Client: the JWKS map, the last update
time, and the configured cacheTime (TTL, milliseconds). -/
structure CacheCore where
  JWKS : JwksMap
  lastUpdatedAt : Int
  cacheTime : Int
deriving DecidableEq
/-- Auth0Client.cacheIsStale evaluated at wall time now. -/
def cacheIsStale (c : CacheCore) (now : Int) : Bool :=
  now - c.lastUpdatedAt > c.cacheTime
/-- Auth0Client.updateKeyCache given the fetched key list and the wall
time at completion: install the filtered keys into a cleared map, then set
lastUpdatedAt. The lines from the clear through the lastUpdatedAt
assignment contain no await, so the whole replacement is one atomic
segment. On a mid-rebuild throw the partial map is left installed and
lastUpdatedAt is unchanged. -/
def updateKeyCache (c : CacheCore) (keys : List JWK) (tDone : Int) :
    Except CacheCore CacheCore :=
  match runKeys keys [] with
  | .ok m => .ok { c with JWKS := m, lastUpdatedAt := tDone }
  | .error m => .error { c with JWKS := m }
/-- Errors thrown by getSigningKey and its callees. -/
inductive KeyErr
  /-- a non-2xx response or transport failure inside getJwks -/
  | fetchFailed
  /-- certToPEM applied to a missing x5c entry mid-rebuild -/
  | badKeyData
  /-- the TypeError raised when no cached signing key matches kid; a kid
  of none models the JS undefined arriving from a header without kid -/
  | noSuchKey (kid : Option String)
deriving DecidableEq
/-- Outcome of one getJwks call, an oracle for the remote endpoint. -/
inductive FetchOut
  | ok (keys : List JWK)
  | fail
deriving DecidableEq
/-- The final lookup of getSigningKey (return the cached key or throw the
no-such-signing-key TypeError). A kid of none (JS undefined) is never a
map key, since only truthy kids pass the filter. -/
def lookupResult (m : JwksMap) (kid : Option String) : Except KeyErr String :=
  match kid with
  | some k =>
    match jwksFind m k with
    | some pk => .ok pk
    | none => .error (.noSuchKey (some k))
  | none => .error (.noSuchKey none)
/-- Result of one getSigningKey call: the value or error, the client state
after the call, and whether a getJwks fetch (cache rebuild) was started
inside the call. -/
structure KeyRun where
  result : Except KeyErr String
  core : CacheCore
  fetched : Bool
deriving DecidableEq
/-- One call of Auth0Client.getSigningKey on an idle client
(deferJWKRequest null, no concurrent caller; concurrency is the machine
below). tCheck is the wall time at the staleness checks, tDone at rebuild
completion; fetch is the outcome of the single possible getJwks call. The
double staleness check in updateKeyCacheIfStale has no await between its
two reads, so it collapses to one test. -/
def getSigningKeySeq (c : CacheCore) (kid : Option String)
    (tCheck tDone : Int) (fetch : FetchOut) : KeyRun :=
  if cacheIsStale c tCheck then
    match fetch with
    | .ok keys =>
      match updateKeyCache c keys tDone with
      | .ok c' => ⟨lookupResult c'.JWKS kid, c', true⟩
      | .error c' => ⟨.error .badKeyData, c', true⟩
    | .fail => ⟨.error .fetchFailed, c, true⟩
  else ⟨lookupResult c.JWKS kid, c, false⟩
/-- Relevant token payload (interface Auth0AccessToken). -/
structure AccessToken where
  exp : Int
  sub : String
deriving DecidableEq
/-- Decoded JWT header (jwt.decode with complete true); kid none models a
header without a kid (JS undefined). -/
structure DecodedHeader where
  kid : Option String
deriving DecidableEq
/-- Errors thrown by verifyAccessToken. -/
inductive VerifyErr
  /-- the TypeError from reading .header on the null that jwt.decode
  returns for an unparseable token -/
  | nullDecodedToken
  /-- an error propagated unchanged from getSigningKey -/
  | keyError (e : KeyErr)
  /-- the error delivered by the jwt.verify callback (bad signature,
  expired, malformed payload) -/
  | verifyFailed (reason : String)
deriving DecidableEq
/-- Result of one verifyAccessToken call. -/
structure VerifyRun where
  result : Except VerifyErr AccessToken
  core : CacheCore
  fetched : Bool
deriving DecidableEq
/-- One call of Auth0Client.verifyAccessToken on an idle client.
decodeRes is the jwt.decode result (none models null); verifyOut is the
outcome the jwt.verify callback delivers for this token against the
retrieved key. On a verify error the single error is thrown and no payload
escapes. -/
def verifyAccessTokenSeq (decodeRes : Option DecodedHeader) (c : CacheCore)
    (tCheck tDone : Int) (fetch : FetchOut)
    (verifyOut : Except String AccessToken) : VerifyRun :=
  match decodeRes with
  | none => ⟨.error .nullDecodedToken, c, false⟩
  | some h =>
    let kr := getSigningKeySeq c h.kid tCheck tDone fetch
    match kr.result with
    | .error e => ⟨.error (.keyError e), kr.core, kr.fetched⟩
    | .ok _pk =>
      match verifyOut with
      | .error msg => ⟨.error (.verifyFailed msg), kr.core, kr.fetched⟩
      | .ok payload => ⟨.ok payload, kr.core, kr.fetched⟩
end Auth0
namespace AuthSocket
/-- Snapshot of the external auth service consumed by AuthSocket:
getTokenExpireTime and getAccessToken. -/
structure AuthSvc where
  tokenExpireTime : Int
  accessToken : String
deriving DecidableEq
/-- Socket-side credential state: the auth token installed on the socket
client and the tracked credentialsExpiresAt. -/
structure Cred where
  credentialsExpiresAt : Int
  authToken : Option String
deriving DecidableEq
/-- AuthSocket._addCredentials: install the current service token on the
socket and record its expiry. -/
def addCredentials (svc : AuthSvc) : Cred :=
  ⟨svc.tokenExpireTime, some svc.accessToken⟩
/-- Result of one _refreshCredentialsIfNecessary call on an idle
instance. -/
structure RefreshRun where
  result : Except Unit Bool
  cred : Cred
  svc : AuthSvc
  refreshCalled : Bool
deriving DecidableEq
/-- One call of AuthSocket._refreshCredentialsIfNecessary on an idle
instance (credentialRefreshLock null, no concurrent caller; concurrency is
the machine below). refreshOut is the outcome of the single possible
silentTokenRefresh call, carrying the new service state on success. The
two source variants coincide on this single-call view; they differ only in
lock release on failure, which the machine captures. -/
def refreshIfNecessarySeq (cred : Cred) (svc : AuthSvc)
    (now threshold : Int) (refreshOut : Except Unit AuthSvc) : RefreshRun :=
  if cred.credentialsExpiresAt - now ≥ threshold ∧
      cred.credentialsExpiresAt = svc.tokenExpireTime then
    ⟨.ok false, cred, svc, false⟩
  else if svc.tokenExpireTime - now < threshold then
    match refreshOut with
    | .ok svc' => ⟨.ok true, addCredentials svc', svc', true⟩
    | .error _ => ⟨.error (), cred, svc, true⟩
  else
    ⟨.ok true, addCredentials svc, svc, false⟩
/-- Status of one task running _refreshCredentialsIfNecessary in the
interleaving machine. Each promiseLock is modelled by a generation
number; awaiting its promise is waiting for that generation to be
resolved. -/
inductive STask
  | entry
  /-- suspended on await credentialRefreshLock.lock for generation g -/
  | waitLock (g : Nat)
  /-- suspended on await authService.silentTokenRefresh() -/
  | inRefresh
  | done (r : Except Unit Bool)
deriving DecidableEq
/-- Shared state of one AuthSocket instance plus its auth service and the
statuses of all (potential) concurrent callers. -/
structure SCfg where
  credentialsExpiresAt : Int
  authToken : Option String
  /-- generation of the installed credentialRefreshLock, none when null -/
  lockGen : Option Nat
  nextGen : Nat
  /-- generations whose lock promise has been resolved -/
  resolved : List Nat
  /-- auth service state: current token expiry and token -/
  serviceExpire : Int
  serviceToken : String
  /-- number of silentTokenRefresh invocations so far -/
  refreshCalls : Nat
  tasks : Nat → STask
/-- One scheduler event: resume task tid at wall time t. out is consumed
only when the task is suspended at silentTokenRefresh and models that
call settling, carrying the new service expiry and token on success. -/
inductive SEv
  | run (tid : Nat) (t : Int) (out : Except Unit (Int × String))
/-- The await-free segment of _refreshCredentialsIfNecessary from the
currentTime read to the next suspension or return: the fast-path check,
then either the silent-refresh branch (installing a promiseLock when none
is installed, then suspending at silentTokenRefresh), or the synchronous
_addCredentials and return true. Entered from entry when the lock is null
and on resumption from a lock wait. -/
def sockGuardSeg (th : Int) (c : SCfg) (tid : Nat) (t : Int) : SCfg :=
  if c.credentialsExpiresAt - t ≥ th ∧
      c.credentialsExpiresAt = c.serviceExpire then
    { c with tasks := updT c.tasks tid (.done (.ok false)) }
  else if c.serviceExpire - t < th then
    let c' := match c.lockGen with
      | none => { c with lockGen := some c.nextGen, nextGen := c.nextGen + 1 }
      | some _ => c
    { c' with refreshCalls := c'.refreshCalls + 1,
              tasks := updT c'.tasks tid .inRefresh }
  else
    { c with credentialsExpiresAt := c.serviceExpire,
             authToken := some c.serviceToken,
             tasks := updT c.tasks tid (.done (.ok true)) }
/-- One machine step. catchVariant selects the source file: true for
src/unnamed/part_000 (try/catch around silentTokenRefresh), false for
src/util/authSocket.ts (no catch). Scheduling a task that is not runnable
(a lock waiter whose generation is unresolved, or a finished task) leaves
the configuration unchanged. -/
def sockStep (catchVariant : Bool) (th : Int) (c : SCfg) : SEv → SCfg
  | .run tid t out =>
    match c.tasks tid with
    | .entry =>
      match c.lockGen with
      | some g => { c with tasks := updT c.tasks tid (.waitLock g) }
      | none => sockGuardSeg th c tid t
    | .waitLock g =>
      if g ∈ c.resolved then sockGuardSeg th c tid t else c
    | .inRefresh =>
      match out with
      | .ok (e, s) =>
        -- success resumption: the service now holds the refreshed token;
        -- unlock whatever lock is current, null it, _addCredentials and
        -- return true, all in one await-free segment
        let c1 := { c with serviceExpire := e, serviceToken := s }
        let c2 := match c1.lockGen with
          | some g => { c1 with resolved := g :: c1.resolved, lockGen := none }
          | none => c1
        { c2 with credentialsExpiresAt := c2.serviceExpire,
                  authToken := some c2.serviceToken,
                  tasks := updT c2.tasks tid (.done (.ok true)) }
      | .error _ =>
        if catchVariant then
          -- part_000: the catch block unlocks and nulls the lock before
          -- rethrowing
          let c2 := match c.lockGen with
            | some g => { c with resolved := g :: c.resolved, lockGen := none }
            | none => c
          { c2 with tasks := updT c2.tasks tid (.done (.error ())) }
        else
          -- authSocket.ts: no catch, so the rejection propagates out and
          -- the unlock / null assignments are skipped entirely
          { c with tasks := updT c.tasks tid (.done (.error ())) }
    | .done _ => c
/-- Run a schedule of events. -/
def sockRun (catchVariant : Bool) (th : Int) (c : SCfg) (evs : List SEv) :
    SCfg :=
  evs.foldl (sockStep catchVariant th) c
/-- Initial configuration: credentials in sync with the service (expiry
e0, installed token a0, service token tok0), no lock installed, and every
caller about to enter _refreshCredentialsIfNecessary. -/
def sockInit (e0 : Int) (tok0 : String) (a0 : Option String) : SCfg :=
  ⟨e0, a0, none, 0, [], e0, tok0, 0, fun _ => .entry⟩
/-- Side conditions on one scheduled event for the single-flight episode:
at every scheduled instant the stale expiry e0 is within the refresh
threshold and the refreshed expiry e1 is not, and every settlement of
silentTokenRefresh succeeds with the refreshed expiry e1 and token
tok1. -/
def sevOK (th e0 e1 : Int) (tok1 : String) : SEv → Bool
  | .run _ t out =>
    decide (e0 - t < th) && decide (e1 - t ≥ th) &&
      decide (out = .ok (e1, tok1))
end AuthSocket
namespace Auth0
/-- Status of one task running getSigningKey in the interleaving machine,
carrying the kid it was called with. -/
inductive ATask
  /-- about to enter getSigningKey -/
  | entry (kid : Option String)
  /-- suspended at the deferJWKRequest await at the top of getSigningKey -/
  | waitDefer1 (kid : Option String) (g : Nat)
  /-- suspended at the deferJWKRequest await inside updateKeyCacheIfStale -/
  | waitDefer2 (kid : Option String) (g : Nat)
  /-- suspended at the getJwks request inside updateKeyCache, owning the
  defer promise of generation g -/
  | inFetch (kid : Option String) (g : Nat)
  /-- suspended at the await of the updateKeyCacheIfStale call, which has
  returned; the remaining work is the map lookup -/
  | postUpdate (kid : Option String)
  | done (r : Except KeyErr String)
deriving DecidableEq
/-- Shared state of one Auth0Client instance and the statuses of all
(potential) concurrent getSigningKey callers. -/
structure ACfg where
  core : CacheCore
  /-- generation of the installed deferJWKRequest promise, none if null -/
  deferGen : Option Nat
  nextGen : Nat
  /-- generations whose defer promise has been resolved -/
  resolved : List Nat
  /-- number of getJwks fetches started so far -/
  fetchCalls : Nat
  tasks : Nat → ATask
/-- One scheduler event: resume task tid at wall time t. out is consumed
only when the task is suspended at getJwks and models that request
settling. -/
inductive AEv
  | run (tid : Nat) (t : Int) (out : FetchOut)
/-- The body of updateKeyCacheIfStale from its staleness check on, entered
with no pending defer await (the two stale reads have no await between
them and collapse to one): on staleness install a fresh defer promise and
start getJwks, suspending at inFetch; otherwise return, leaving the caller
suspended at its own await of the returned promise. -/
def aStaleSeg (c : ACfg) (tid : Nat) (kid : Option String) (t : Int) :
    ACfg :=
  if cacheIsStale c.core t then
    { c with deferGen := some c.nextGen, nextGen := c.nextGen + 1,
             fetchCalls := c.fetchCalls + 1,
             tasks := updT c.tasks tid (.inFetch kid c.nextGen) }
  else
    { c with tasks := updT c.tasks tid (.postUpdate kid) }
/-- One machine step of the key-cache coordinator. Scheduling a task that
is not runnable leaves the configuration unchanged. -/
def aStep (c : ACfg) : AEv → ACfg
  | .run tid t out =>
    match c.tasks tid with
    | .entry kid =>
      match c.deferGen with
      | some g => { c with tasks := updT c.tasks tid (.waitDefer1 kid g) }
      | none =>
        -- the top defer check saw null; the call into
        -- updateKeyCacheIfStale runs synchronously to its first await,
        -- and its own defer check still sees null
        aStaleSeg c tid kid t
    | .waitDefer1 kid g =>
      if g ∈ c.resolved then
        -- resumed; now call updateKeyCacheIfStale, whose body runs
        -- synchronously to its first await
        match c.deferGen with
        | some g' => { c with tasks := updT c.tasks tid (.waitDefer2 kid g') }
        | none => aStaleSeg c tid kid t
      else c
    | .waitDefer2 kid g =>
      if g ∈ c.resolved then aStaleSeg c tid kid t else c
    | .inFetch kid g =>
      match out with
      | .ok keys =>
        match updateKeyCache c.core keys t with
        | .ok core' =>
          -- rebuild installed; the owner nulls the current defer and
          -- resolves its own promise, then updateKeyCacheIfStale returns
          -- and the task is left at the caller side await
          { c with core := core', deferGen := none,
                   resolved := g :: c.resolved,
                   tasks := updT c.tasks tid (.postUpdate kid) }
        | .error core' =>
          -- mid-rebuild throw: the catch nulls the defer, resolves the
          -- promise and rethrows out of getSigningKey
          { c with core := core', deferGen := none,
                   resolved := g :: c.resolved,
                   tasks := updT c.tasks tid (.done (.error .badKeyData)) }
      | .fail =>
        -- getJwks rejected: same catch path, cache untouched
        { c with deferGen := none, resolved := g :: c.resolved,
                 tasks := updT c.tasks tid (.done (.error .fetchFailed)) }
    | .postUpdate kid =>
      { c with tasks := updT c.tasks tid (.done (lookupResult c.core.JWKS kid)) }
    | .done _ => c
/-- Run a schedule of events. -/
def aRun (c : ACfg) (evs : List AEv) : ACfg :=
  evs.foldl aStep c
/-- Initial configuration: cache map m0 last updated at u0 with TTL ttl,
defer promise null, every caller about to enter getSigningKey with its own
kid. -/
def aInit (m0 : JwksMap) (u0 ttl : Int) (kids : Nat → Option String) :
    ACfg :=
  ⟨⟨m0, u0, ttl⟩, none, 0, [], 0, fun i => .entry (kids i)⟩
/-- Side conditions on one scheduled event for the single-flight episode:
every scheduled instant finds the original cache (updated at u0) stale,
and every fetch settles successfully with the fixed key list ks. -/
def aevOK (ttl u0 : Int) (ks : List JWK) : AEv → Bool
  | .run _ t out => decide (t - u0 > ttl) && decide (out = .ok ks)
/-- The wall time of an event. -/
def aevTime : AEv → Int
  | .run _ t _ => t
/-- The episode spans at most one TTL: every event is at most ttl after
every earlier one, so a cache rebuilt during the episode is never stale
again within it. -/
def aSpanOK (ttl : Int) : List AEv → Bool
  | [] => true
  | ev :: rest =>
    (rest.all fun ev' => decide (aevTime ev' - aevTime ev ≤ ttl)) &&
      aSpanOK ttl rest
end Auth0
namespace AuthSocket
/-- Status of one task running _authEmit (src/util/authSocket.ts) in the
emit-ordering machine. The inner _refreshCredentialsIfNecessary call is
abstracted into a single suspension whose boolean settlement is supplied
by the scheduler; its internals are the refresh machine above. The caller
is assumed authenticated (otherwise _authEmit throws before any of
this). -/
inductive ETask
  | entry
  /-- suspended at await _refreshCredentialsIfNecessary() -/
  | inRefresh
  /-- suspended at await socketEmitLock.lock for generation g -/
  | waitEmit (g : Nat)
  | done
deriving DecidableEq
/-- Shared state of the emit-ordering machine. -/
structure ECfg where
  /-- generation of the installed socketEmitLock, none when null -/
  emitLockGen : Option Nat
  nextGen : Nat
  /-- generations whose emit lock promise has been resolved -/
  resolvedE : List Nat
  /-- true between the disconnect().connect() call and the connect event -/
  reconnecting : Bool
  /-- unlock functions registered via once connect, by generation -/
  pendingConnect : List Nat
  /-- socketClientInstance.emit invocations, in order, by task id -/
  emits : List Nat
  tasks : Nat → ETask
/-- One scheduler event: either resume task tid (r being the settlement of
its _refreshCredentialsIfNecessary call), or the underlying connection is
established, firing every registered once connect handler. -/
inductive EEv
  | run (tid : Nat) (r : Bool)
  | connect
/-- One step of the emit-ordering machine (src/util/authSocket.ts). -/
def eStep (c : ECfg) : EEv → ECfg
  | .run tid r =>
    match c.tasks tid with
    | .entry => { c with tasks := updT c.tasks tid .inRefresh }
    | .inRefresh =>
      if r then
        -- refresh happened: disconnect().connect(), install the
        -- socketEmitLock, register once connect with the unlock of the
        -- freshly installed lock, then await the lock; all one segment
        { c with reconnecting := true,
                 emitLockGen := some c.nextGen,
                 pendingConnect := c.pendingConnect ++ [c.nextGen],
                 nextGen := c.nextGen + 1,
                 tasks := updT c.tasks tid (.waitEmit c.nextGen) }
      else
        match c.emitLockGen with
        | some g => { c with tasks := updT c.tasks tid (.waitEmit g) }
        | none => { c with emits := c.emits ++ [tid],
                           tasks := updT c.tasks tid .done }
    | .waitEmit g =>
      if g ∈ c.resolvedE then
        -- resumed from the lock await: null socketEmitLock, then emit
        { c with emitLockGen := none, emits := c.emits ++ [tid],
                 tasks := updT c.tasks tid .done }
      else c
    | .done => c
  | .connect =>
    if c.reconnecting then
      { c with reconnecting := false,
               resolvedE := c.resolvedE ++ c.pendingConnect,
               pendingConnect := [] }
    else c
/-- Run a schedule of events. -/
def eRun (c : ECfg) (evs : List EEv) : ECfg :=
  evs.foldl eStep c
/-- Initial configuration: connected socket, no emit lock, every caller
about to enter _authEmit. -/
def eInit : ECfg := ⟨none, 0, [], false, [], [], fun _ => .entry⟩
/-- Whether an event settles a refresh call with true (a credential
rotation). -/
def isRotation : EEv → Bool
  | .run _ r => r
  | .connect => false
/-- Number of rotation events available to the schedule. -/
def eTrueCount (evs : List EEv) : Nat :=
  evs.countP isRotation
/-- Status of one task running _authEmit in the src/unnamed/part_000
variant, which has no socketEmitLock: after a refresh it calls
disconnect().connect() and then invokes emit immediately, relying on the
transport to queue the message until reconnection. -/
inductive PTask
  | entry
  | inRefresh
  | done
deriving DecidableEq
/-- State of the part_000 emit machine. -/
structure PCfg where
  reconnecting : Bool
  emits : List Nat
  tasks : Nat → PTask
/-- One step of the part_000 emit machine. -/
def pStep (c : PCfg) : EEv → PCfg
  | .run tid r =>
    match c.tasks tid with
    | .entry => { c with tasks := updT c.tasks tid .inRefresh }
    | .inRefresh =>
      if r then
        -- disconnect().connect(), then emit at once, in one segment
        { c with reconnecting := true, emits := c.emits ++ [tid],
                 tasks := updT c.tasks tid .done }
      else
        { c with emits := c.emits ++ [tid],
                 tasks := updT c.tasks tid .done }
    | .done => c
  | .connect =>
    if c.reconnecting then { c with reconnecting := false } else c
/-- Run a schedule of events on the part_000 emit machine. -/
def pRun (c : PCfg) (evs : List EEv) : PCfg :=
  evs.foldl pStep c
/-- Initial configuration of the part_000 emit machine. -/
def pInit : PCfg := ⟨false, [], fun _ => .entry⟩
end AuthSocket
open Auth0 AuthSocket
/-- Invariant of the wedged authSocket.ts instance after a failed refresh:
the lock of generation 0 is still installed and unresolved, the failed
caller is finished with the error, and every other caller is either not
yet started or parked forever on the unresolved lock. -/
def WedgedCfg (c : SCfg) : Prop :=
  c.lockGen = some 0 ∧ c.resolved = [] ∧
    c.tasks 0 = .done (.error ()) ∧
    ∀ i, i ≠ 0 → c.tasks i = .entry ∨ c.tasks i = .waitLock 0
/-- Emit machine phase before any credential rotation. -/
def EPhase0 (c : ECfg) : Prop :=
  c.reconnecting = false ∧ c.emitLockGen = none ∧ c.pendingConnect = [] ∧
    c.resolvedE = [] ∧ c.nextGen = 0 ∧
    ∀ i, c.tasks i = .entry ∨ c.tasks i = .inRefresh ∨ c.tasks i = .done
/-- Emit machine phase while the rotation reconnect is pending: the lock
of generation 0 is installed and unresolved, its unlock registered for the
connect event, and every gated emit waits on exactly that generation. -/
def EPhase1 (c : ECfg) : Prop :=
  c.reconnecting = true ∧ c.emitLockGen = some 0 ∧ c.pendingConnect = [0] ∧
    c.resolvedE = [] ∧ c.nextGen = 1 ∧
    ∀ i, c.tasks i = .entry ∨ c.tasks i = .inRefresh ∨
      c.tasks i = .waitEmit 0 ∨ c.tasks i = .done
/-- Emit machine phase after the connect event fired. -/
def EPhase2 (c : ECfg) : Prop :=
  c.reconnecting = false ∧
    (c.emitLockGen = some 0 ∨ c.emitLockGen = none) ∧
    c.pendingConnect = [] ∧ c.resolvedE = [0] ∧ c.nextGen = 1 ∧
    ∀ i, c.tasks i = .entry ∨ c.tasks i = .inRefresh ∨
      c.tasks i = .waitEmit 0 ∨ c.tasks i = .done
/-- Inductive invariant for a schedule containing at most one credential
rotation, parameterized by the remaining schedule. -/
def EInv (c : ECfg) (evs : List EEv) : Prop :=
  (EPhase0 c ∧ eTrueCount evs ≤ 1) ∨
    (EPhase1 c ∧ eTrueCount evs = 0) ∨
    (EPhase2 c ∧ eTrueCount evs = 0)
/-- Phase A of the single-flight refresh episode: stale in-sync
credential, no silentTokenRefresh started. -/
def SPhaseA (e0 : Int) (tok0 : String) (a0 : Option String) (c : SCfg) :
    Prop :=
  c.refreshCalls = 0 ∧ c.serviceExpire = e0 ∧ c.serviceToken = tok0 ∧
    c.credentialsExpiresAt = e0 ∧ c.authToken = a0 ∧
    c.lockGen = none ∧ c.nextGen = 0 ∧ c.resolved = [] ∧
    ∀ i, c.tasks i = .entry
/-- Phase B: exactly one silentTokenRefresh in flight, its owner holding
the lock of generation 0; every other caller is untouched or parked on
that lock. -/
def SPhaseB (e0 : Int) (tok0 : String) (a0 : Option String) (c : SCfg) :
    Prop :=
  c.refreshCalls = 1 ∧ c.serviceExpire = e0 ∧ c.serviceToken = tok0 ∧
    c.credentialsExpiresAt = e0 ∧ c.authToken = a0 ∧
    c.lockGen = some 0 ∧ c.nextGen = 1 ∧ c.resolved = [] ∧
    ∃ j, c.tasks j = .inRefresh ∧
      ∀ i, i ≠ j → c.tasks i = .entry ∨ c.tasks i = .waitLock 0
/-- Phase C: the single refresh has completed; the refreshed credential is
installed, the lock is resolved and nulled, the owner returned true, and
every other caller either has not run yet, is about to resume, or has
observed the fresh credential and returned false. -/
def SPhaseC (e1 : Int) (tok1 : String) (c : SCfg) : Prop :=
  c.refreshCalls = 1 ∧ c.serviceExpire = e1 ∧ c.serviceToken = tok1 ∧
    c.credentialsExpiresAt = e1 ∧ c.authToken = some tok1 ∧
    c.lockGen = none ∧ c.nextGen = 1 ∧ c.resolved = [0] ∧
    ∃ j, c.tasks j = .done (.ok true) ∧
      ∀ i, i ≠ j → c.tasks i = .entry ∨ c.tasks i = .waitLock 0 ∨
        c.tasks i = .done (.ok false)
/-- Inductive invariant of the single-flight refresh episode. -/
def SInv (e0 e1 : Int) (tok0 tok1 : String) (a0 : Option String)
    (c : SCfg) : Prop :=
  SPhaseA e0 tok0 a0 c ∨ SPhaseB e0 tok0 a0 c ∨ SPhaseC e1 tok1 c
/-- Phase A of the key-cache single-flight episode: stale cache, no fetch
started. -/
def APhaseA (m0 : JwksMap) (u0 ttl : Int) (kids : Nat → Option String)
    (c : ACfg) : Prop :=
  c.fetchCalls = 0 ∧ c.core = ⟨m0, u0, ttl⟩ ∧ c.deferGen = none ∧
    c.nextGen = 0 ∧ c.resolved = [] ∧ ∀ i, c.tasks i = .entry (kids i)
/-- Phase B: exactly one getJwks fetch in flight, its owner holding the
defer promise of generation 0; every other caller is untouched or parked
on that promise. -/
def APhaseB (m0 : JwksMap) (u0 ttl : Int) (kids : Nat → Option String)
    (c : ACfg) : Prop :=
  c.fetchCalls = 1 ∧ c.core = ⟨m0, u0, ttl⟩ ∧ c.deferGen = some 0 ∧
    c.nextGen = 1 ∧ c.resolved = [] ∧
    ∃ j, c.tasks j = .inFetch (kids j) 0 ∧
      ∀ i, i ≠ j → c.tasks i = .entry (kids i) ∨
        c.tasks i = .waitDefer1 (kids i) 0
/-- Phase C: the single rebuild has completed and installed the new map;
the defer promise is resolved and nulled, the cache stays fresh for every
remaining event, and every caller either has not run, is about to
resume, is about to look up, or is finished with the lookup result
against the rebuilt map. -/
def APhaseC (ttl : Int) (kids : Nat → Option String) (m1 : JwksMap)
    (evs : List AEv) (c : ACfg) : Prop :=
  c.fetchCalls = 1 ∧ c.core.JWKS = m1 ∧ c.core.cacheTime = ttl ∧
    (∀ ev ∈ evs, aevTime ev - c.core.lastUpdatedAt ≤ ttl) ∧
    c.deferGen = none ∧ c.nextGen = 1 ∧ c.resolved = [0] ∧
    ∀ i, c.tasks i = .entry (kids i) ∨ c.tasks i = .waitDefer1 (kids i) 0 ∨
      c.tasks i = .postUpdate (kids i) ∨
      c.tasks i = .done (lookupResult m1 (kids i))
/-- Inductive invariant of the key-cache single-flight episode,
parameterized by the remaining schedule. -/
def AInv (m0 : JwksMap) (u0 ttl : Int) (kids : Nat → Option String)
    (m1 : JwksMap) (evs : List AEv) (c : ACfg) : Prop :=
  APhaseA m0 u0 ttl kids c ∨ APhaseB m0 u0 ttl kids c ∨
    APhaseC ttl kids m1 evs c
/-- Concrete five-caller schedule for the refresh coordinator: caller 0
becomes the owner, callers 1-4 join, the refresh settles, the waiters
resume. -/
def c1SockSched : List SEv :=
  [.run 0 0 (.ok (1000000, "b")), .run 1 0 (.ok (1000000, "b")),
    .run 2 0 (.ok (1000000, "b")), .run 3 0 (.ok (1000000, "b")),
    .run 4 0 (.ok (1000000, "b")), .run 0 0 (.ok (1000000, "b")),
    .run 1 0 (.ok (1000000, "b")), .run 2 0 (.ok (1000000, "b")),
    .run 3 0 (.ok (1000000, "b")), .run 4 0 (.ok (1000000, "b"))]
/-- Concrete five-caller schedule for the key-cache coordinator: caller 0
becomes the fetch owner, callers 1-4 join, the fetch settles, everyone
resumes and looks up. -/
def c1CacheSched : List AEv :=
  [.run 0 100000 (.ok [⟨"RSA", "K1", "RS256", "sig", ["c1"], "", ""⟩]),
    .run 1 100000 (.ok [⟨"RSA", "K1", "RS256", "sig", ["c1"], "", ""⟩]),
    .run 2 100000 (.ok [⟨"RSA", "K1", "RS256", "sig", ["c1"], "", ""⟩]),
    .run 3 100000 (.ok [⟨"RSA", "K1", "RS256", "sig", ["c1"], "", ""⟩]),
    .run 4 100000 (.ok [⟨"RSA", "K1", "RS256", "sig", ["c1"], "", ""⟩]),
    .run 0 100000 (.ok [⟨"RSA", "K1", "RS256", "sig", ["c1"], "", ""⟩]),
    .run 1 100000 (.ok [⟨"RSA", "K1", "RS256", "sig", ["c1"], "", ""⟩]),
    .run 2 100000 (.ok [⟨"RSA", "K1", "RS256", "sig", ["c1"], "", ""⟩]),
    .run 3 100000 (.ok [⟨"RSA", "K1", "RS256", "sig", ["c1"], "", ""⟩]),
    .run 4 100000 (.ok [⟨"RSA", "K1", "RS256", "sig", ["c1"], "", ""⟩]),
    .run 0 100000 (.ok [⟨"RSA", "K1", "RS256", "sig", ["c1"], "", ""⟩]),
    .run 1 100000 (.ok [⟨"RSA", "K1", "RS256", "sig", ["c1"], "", ""⟩]),
    .run 2 100000 (.ok [⟨"RSA", "K1", "RS256", "sig", ["c1"], "", ""⟩]),
    .run 3 100000 (.ok [⟨"RSA", "K1", "RS256", "sig", ["c1"], "", ""⟩]),
    .run 4 100000 (.ok [⟨"RSA", "K1", "RS256", "sig", ["c1"], "", ""⟩])]
/-- Count equation for a rotation event. -/
theorem eTrueCount_cons_true (tid : Nat) (rest : List EEv) :
    eTrueCount (.run tid true :: rest) = eTrueCount rest + 1 := by
  simp [eTrueCount, List.countP_cons, isRotation]
/-- Count equation for a non-rotation resumption. -/
theorem eTrueCount_cons_false (tid : Nat) (rest : List EEv) :
    eTrueCount (.run tid false :: rest) = eTrueCount rest := by
  simp [eTrueCount, List.countP_cons, isRotation]
/-- Count equation for a connect event. -/
theorem eTrueCount_cons_connect (rest : List EEv) :
    eTrueCount (.connect :: rest) = eTrueCount rest := by
  simp [eTrueCount, List.countP_cons, isRotation]
/-- Looking a key up after a JS Map.set: the freshly set kid maps to the
new value; other kids are unaffected. -/
theorem jwksFind_jwksSet (m : JwksMap) (key v q : String) :
    jwksFind (jwksSet m key v) q =
      if q = key then some v else jwksFind m q := by
  induction m with
  | nil =>
    by_cases h : q = key
    · simp [jwksSet, jwksFind, h]
    · simp [jwksSet, jwksFind, h]
      exact fun hc => h hc.symm
  | cons kv rest ih =>
    obtain ⟨k, w⟩ := kv
    by_cases hk : k = key
    · subst hk
      by_cases hq : q = k
      · subst hq
        simp [jwksSet, jwksFind]
      · have hk2 : ¬k = q := fun hc => hq hc.symm
        simp [jwksSet, jwksFind, hq, hk2]
    · by_cases hq : q = k
      · subst hq
        simp [jwksSet, jwksFind, hk]
      · have hk2 : ¬k = q := fun hc => hq hc.symm
        simp [jwksSet, jwksFind, hk, hk2, ih]
/-- A kid is present after the rebuild loop exactly when it was already
present in the accumulator or some fetched key passing the usability
filter carries it. -/
theorem runKeys_mem (ks : List JWK) (m m' : JwksMap)
    (h : runKeys ks m = .ok m') (q : String) :
    (jwksFind m' q).isSome =
      ((jwksFind m q).isSome ||
        ks.any fun j => passFilter j && decide (j.kid = q)) := by
  induction ks generalizing m with
  | nil =>
    simp [runKeys] at h
    subst h
    simp
  | cons j rest ih =>
    by_cases hp : passFilter j
    · rcases hx : j.x5c.head? with _ | ⟨cert⟩
      · simp [runKeys, hp, hx] at h
      · have h' : runKeys rest (jwksSet m j.kid (certToPEM cert)) = .ok m' := by
          simpa [runKeys, hp, hx] using h
        have := ih _ h'
        rw [this, jwksFind_jwksSet]
        by_cases hq : q = j.kid
        · subst hq
          simp [hp]
        · have : ¬(j.kid = q) := fun hc => hq hc.symm
          simp [hq, hp, this]
    · have h' : runKeys rest m = .ok m' := by simpa [runKeys, hp] using h
      have := ih _ h'
      simp [this, hp]
/-- C4: the credential staleness decision of _refreshCredentialsIfNecessary
is: a refresh is needed (the call returns true) exactly when the remaining
validity credentialsExpiresAt - now is below credentialRefreshThreshold or
the expiry reported by authService.getTokenExpireTime differs from the
cached credentialsExpiresAt; when neither holds the call returns false,
performs no external call, and changes no state. -/
theorem c4_staleness_decision (cred : Cred) (svc : AuthSvc) (now th : Int)
    (out : Except Unit AuthSvc) :
    (∀ svc', out = .ok svc' →
      ((refreshIfNecessarySeq cred svc now th out).result = .ok true ↔
        (cred.credentialsExpiresAt - now < th ∨
          cred.credentialsExpiresAt ≠ svc.tokenExpireTime))) ∧
    (cred.credentialsExpiresAt - now ≥ th →
      cred.credentialsExpiresAt = svc.tokenExpireTime →
      refreshIfNecessarySeq cred svc now th out = ⟨.ok false, cred, svc, false⟩) := by
  constructor
  · intro svc' hout
    subst hout
    unfold refreshIfNecessarySeq
    split_ifs with h1 h2 <;> simp <;> omega
  · intro h1 h2
    unfold refreshIfNecessarySeq
    rw [if_pos ⟨h1, h2⟩]
/-- Witness for C4 at concrete inputs. -/
theorem c4_staleness_decision_witness :
    refreshIfNecessarySeq ⟨20000, some "tok"⟩ ⟨20000, "tok"⟩ 0 10000
        (.ok ⟨99999, "new"⟩) = ⟨.ok false, ⟨20000, some "tok"⟩, ⟨20000, "tok"⟩, false⟩ :=
  (c4_staleness_decision ⟨20000, some "tok"⟩ ⟨20000, "tok"⟩ 0 10000
    (.ok ⟨99999, "new"⟩)).2 (by decide) (by decide)
/-- C5 counterexample: a credential within the threshold of expiry
(expires in 5000 ms, threshold 10000 ms) and equal to the last known
source expiry does trigger a refresh: _refreshCredentialsIfNecessary
invokes silentTokenRefresh and returns true, not false. -/
theorem c5_within_threshold_cex :
    (refreshIfNecessarySeq ⟨5000, some "tok"⟩ ⟨5000, "tok"⟩ 0 10000
        (.ok ⟨3600000, "new"⟩)).refreshCalled = true ∧
    (refreshIfNecessarySeq ⟨5000, some "tok"⟩ ⟨5000, "tok"⟩ 0 10000
        (.ok ⟨3600000, "new"⟩)).result = .ok true := by
  constructor <;> rfl
/-- C5 amended: a credential whose remaining validity is at least the
threshold, and whose expiry equals the last known source expiry, never
triggers a refresh: _refreshCredentialsIfNecessary returns false without
invoking silentTokenRefresh and without changing any state. -/
theorem c5_fast_path_amended (cred : Cred) (svc : AuthSvc) (now th : Int)
    (out : Except Unit AuthSvc)
    (h1 : cred.credentialsExpiresAt - now ≥ th)
    (h2 : cred.credentialsExpiresAt = svc.tokenExpireTime) :
    refreshIfNecessarySeq cred svc now th out = ⟨.ok false, cred, svc, false⟩ := by
  unfold refreshIfNecessarySeq
  rw [if_pos ⟨h1, h2⟩]
/-- Witness for the amended C5 at concrete inputs. -/
theorem c5_fast_path_amended_witness :
    refreshIfNecessarySeq ⟨50000, some "tok"⟩ ⟨50000, "tok"⟩ 0 10000
        (.error ()) = ⟨.ok false, ⟨50000, some "tok"⟩, ⟨50000, "tok"⟩, false⟩ :=
  c5_fast_path_amended ⟨50000, some "tok"⟩ ⟨50000, "tok"⟩ 0 10000 (.error ())
    (by decide) (by decide)
/-- C6: the key-cache staleness decision is a pure TTL test: a single
getSigningKey call starts a rebuild exactly when now - lastUpdatedAt
exceeds cacheTime; in particular with cacheTime 60000 and a cache last
updated 30000 ms before the call, no rebuild happens (getJwks is not
called) and the cached entry for the requested kid is returned with the
state untouched. -/
theorem c6_ttl_policy :
    (∀ (c : CacheCore) (kid : Option String) (t0 t1 : Int) (f : FetchOut),
      (getSigningKeySeq c kid t0 t1 f).fetched = cacheIsStale c t0 ∧
      cacheIsStale c t0 = decide (t0 - c.lastUpdatedAt > c.cacheTime)) ∧
    (∀ (m : JwksMap) (kid pk : String) (now t1 : Int) (f : FetchOut),
      jwksFind m kid = some pk →
      getSigningKeySeq ⟨m, now - 30000, 60000⟩ (some kid) now t1 f =
        ⟨.ok pk, ⟨m, now - 30000, 60000⟩, false⟩) := by
  constructor
  · intro c kid t0 t1 f
    refine ⟨?_, rfl⟩
    unfold getSigningKeySeq
    by_cases h : cacheIsStale c t0
    · rw [if_pos h, h]
      cases f with
      | fail => rfl
      | ok keys =>
        cases hV : updateKeyCache c keys t1 <;> simp [hV]
    · rw [if_neg h]
      simp only [Bool.not_eq_true] at h
      simp [h]
  · intro m kid pk now t1 f h
    have hst : cacheIsStale ⟨m, now - 30000, 60000⟩ now = false := by
      unfold cacheIsStale
      simp
    unfold getSigningKeySeq
    rw [hst]
    simp [lookupResult, h]
/-- Witness for C6 at concrete inputs. -/
theorem c6_ttl_policy_witness :
    getSigningKeySeq ⟨[("K1", "PEM1")], 100000 - 30000, 60000⟩ (some "K1")
        100000 100000 .fail = ⟨.ok "PEM1", ⟨[("K1", "PEM1")], 70000, 60000⟩, false⟩ :=
  c6_ttl_policy.2 [("K1", "PEM1")] "K1" "PEM1" 100000 100000 .fail (by decide)
/-- C7: a kid absent from the cache after the at-most-one rebuild a
getSigningKey call can perform fails with the no-such-signing-key
TypeError; the call structurally contains a single rebuild opportunity
(fetched is its indicator), so no second rebuild is attempted: when the
cache was stale the rebuild runs exactly once (fetched = true), and when
it was fresh the lookup fails with no rebuild at all (fetched = false). -/
theorem c7_absent_kid_lookup_error (c : CacheCore) (kid : String)
    (t0 t1 : Int) (ks : List JWK) (m1 : JwksMap) :
    (cacheIsStale c t0 = true → runKeys ks [] = .ok m1 →
      jwksFind m1 kid = none →
      getSigningKeySeq c (some kid) t0 t1 (.ok ks) =
        ⟨.error (.noSuchKey (some kid)), ⟨m1, t1, c.cacheTime⟩, true⟩) ∧
    (∀ f, cacheIsStale c t0 = false → jwksFind c.JWKS kid = none →
      getSigningKeySeq c (some kid) t0 t1 f =
        ⟨.error (.noSuchKey (some kid)), c, false⟩) := by
  constructor
  · intro hst hrun hfind
    unfold getSigningKeySeq
    rw [hst]
    simp only [if_pos rfl]
    unfold updateKeyCache
    rw [hrun]
    simp [lookupResult, hfind]
  · intro f hst hfind
    unfold getSigningKeySeq
    rw [hst]
    simp [lookupResult, hfind]
/-- Witness for C7 at concrete inputs: a stale cache rebuilt from one
usable key K1 cannot resolve K2. -/
theorem c7_absent_kid_lookup_error_witness :
    getSigningKeySeq ⟨[], 0, 60000⟩ (some "K2") 100000 100000
        (.ok [⟨"RSA", "K1", "RS256", "sig", ["c1"], "", ""⟩]) =
      ⟨.error (.noSuchKey (some "K2")),
        ⟨[("K1", certToPEM "c1")], 100000, 60000⟩, true⟩ :=
  (c7_absent_kid_lookup_error ⟨[], 0, 60000⟩ "K2" 100000 100000
    [⟨"RSA", "K1", "RS256", "sig", ["c1"], "", ""⟩] [("K1", certToPEM "c1")]).1
    (by decide) (by simp [runKeys, passFilter, jwksSet]) (by decide)
/-- C8: a successful updateKeyCache replaces the entire JWKS map with
exactly the fetched keys passing the usability filter and stamps
lastUpdatedAt with the completion time in the same await-free segment in
which the new map is installed; any kid cached before the rebuild but
absent from the fetched set is immediately unresolvable (getSigningKey
raises the lookup error) even at an instant within the TTL of the
rebuild. -/
theorem c8_rebuild_replaces_map (c : CacheCore) (ks : List JWK) (t1 : Int)
    (m1 : JwksMap) (hrun : runKeys ks [] = .ok m1) :
    updateKeyCache c ks t1 = .ok ⟨m1, t1, c.cacheTime⟩ ∧
    (∀ q, (jwksFind m1 q).isSome =
      ks.any fun j => passFilter j && decide (j.kid = q)) ∧
    (∀ kid, (jwksFind c.JWKS kid).isSome = true →
      (∀ j ∈ ks, passFilter j = true → j.kid ≠ kid) →
      ∀ t' t2 f, t' - t1 ≤ c.cacheTime →
        getSigningKeySeq ⟨m1, t1, c.cacheTime⟩ (some kid) t' t2 f =
          ⟨.error (.noSuchKey (some kid)), ⟨m1, t1, c.cacheTime⟩, false⟩) := by
  have hmem : ∀ q, (jwksFind m1 q).isSome =
      ks.any fun j => passFilter j && decide (j.kid = q) := by
    intro q
    have := runKeys_mem ks [] m1 hrun q
    simpa [jwksFind] using this
  refine ⟨?_, hmem, ?_⟩
  · unfold updateKeyCache
    rw [hrun]
  · intro kid _ habs t' t2 f httl
    have hnone : jwksFind m1 kid = none := by
      have h2 : (ks.any fun j => passFilter j && decide (j.kid = kid)) = false := by
        rw [List.any_eq_false]
        intro j hj
        simp only [Bool.and_eq_true, decide_eq_true_eq, not_and]
        intro hp
        exact habs j hj hp
      have := hmem kid
      rw [h2] at this
      exact Option.not_isSome_iff_eq_none.mp (by simp [this])
    have hst : cacheIsStale ⟨m1, t1, c.cacheTime⟩ t' = false := by
      unfold cacheIsStale
      simp only [decide_eq_false_iff_not, not_lt]
      omega
    unfold getSigningKeySeq
    rw [hst]
    simp [lookupResult, hnone]
/-- Witness for C8: rebuilding with a set containing only K2 makes the
previously cached K1 unresolvable within the TTL. -/
theorem c8_rebuild_replaces_map_witness :
    updateKeyCache ⟨[("K1", "OLD")], 0, 60000⟩
        [⟨"RSA", "K2", "RS256", "sig", ["c2"], "", ""⟩] 100000 =
      .ok ⟨[("K2", certToPEM "c2")], 100000, 60000⟩ ∧
    getSigningKeySeq ⟨[("K2", certToPEM "c2")], 100000, 60000⟩ (some "K1")
        100000 100000 .fail =
      ⟨.error (.noSuchKey (some "K1")), ⟨[("K2", certToPEM "c2")], 100000, 60000⟩,
        false⟩ := by
  have h := c8_rebuild_replaces_map ⟨[("K1", "OLD")], 0, 60000⟩
    [⟨"RSA", "K2", "RS256", "sig", ["c2"], "", ""⟩] 100000
    [("K2", certToPEM "c2")] (by simp [runKeys, passFilter, jwksSet])
  refine ⟨h.1, ?_⟩
  exact h.2.2 "K1" (by decide)
    (by intro j hj _; simp at hj; subst hj; decide) 100000 100000 .fail (by decide)
/-- A getSigningKey call whose kid is none (the JS undefined arriving from
a token header without kid) always throws: no branch can return a key. -/
theorem getSigningKey_none_errs (c : CacheCore) (t0 t1 : Int)
    (f : FetchOut) : ∀ pk, (getSigningKeySeq c none t0 t1 f).result ≠ .ok pk := by
  intro pk
  unfold getSigningKeySeq
  by_cases h : cacheIsStale c t0
  · rw [if_pos h]
    cases f with
    | fail => simp
    | ok keys => cases hV : updateKeyCache c keys t1 <;> simp [hV, lookupResult]
  · rw [if_neg h]
    simp [lookupResult]
/-- C10 counterexample: for a token whose decoded header lacks a kid
(jwt.decode succeeds but header.kid is undefined), verifyAccessToken does
not fail with a malformed-token error: it proceeds into getSigningKey and
surfaces the no-such-signing-key lookup TypeError instead (here on a fresh
cache holding K1). The source has no malformed-token error path at all. -/
theorem c10_missing_kid_error_cex :
    verifyAccessTokenSeq (some ⟨none⟩) ⟨[("K1", "PK1")], 100, 60000⟩ 100 100
        .fail (.ok ⟨0, "sub"⟩) =
      ⟨.error (.keyError (.noSuchKey none)), ⟨[("K1", "PK1")], 100, 60000⟩,
        false⟩ := by
  rfl
/-- C10 amended: a null jwt.decode result makes verifyAccessToken throw
the TypeError from reading .header of null (before any cache activity); a
header merely lacking kid makes it throw the no-such-signing-key lookup
error from getSigningKey (here stated when the cache is fresh; a stale
cache first performs its one rebuild, and a fetch failure surfaces that
error instead); in every such case no claims are returned, any
verification failure surfaces as the single error of the jwt.verify
callback, and a payload is returned only when that callback succeeded with
exactly that payload. -/
theorem c10_verify_failure_amended (c : CacheCore) (t0 t1 : Int)
    (f : FetchOut) (vout : Except String AccessToken) :
    (verifyAccessTokenSeq none c t0 t1 f vout =
      ⟨.error .nullDecodedToken, c, false⟩) ∧
    (∀ p, (verifyAccessTokenSeq (some ⟨none⟩) c t0 t1 f vout).result ≠ .ok p) ∧
    (cacheIsStale c t0 = false →
      (verifyAccessTokenSeq (some ⟨none⟩) c t0 t1 f vout).result =
        .error (.keyError (.noSuchKey none))) ∧
    (∀ h pk msg, (getSigningKeySeq c (DecodedHeader.kid h) t0 t1 f).result = .ok pk →
      vout = .error msg →
      (verifyAccessTokenSeq (some h) c t0 t1 f vout).result =
        .error (.verifyFailed msg)) ∧
    (∀ h p, (verifyAccessTokenSeq (some h) c t0 t1 f vout).result = .ok p →
      vout = .ok p) := by
  refine ⟨rfl, ?_, ?_, ?_, ?_⟩
  · intro p
    unfold verifyAccessTokenSeq
    rcases hk : (getSigningKeySeq c none t0 t1 f).result with e | pk
    · simp [hk]
    · exact absurd hk (getSigningKey_none_errs c t0 t1 f pk)
  · intro hst
    unfold verifyAccessTokenSeq
    have : (getSigningKeySeq c none t0 t1 f).result =
        .error (.noSuchKey none) := by
      unfold getSigningKeySeq
      rw [hst]
      simp [lookupResult]
    simp [this]
  · intro h pk msg hok hv
    subst hv
    unfold verifyAccessTokenSeq
    simp [hok]
  · intro h p hres
    unfold verifyAccessTokenSeq at hres
    rcases hk : (getSigningKeySeq c h.kid t0 t1 f).result with e | pk
    · simp [hk] at hres
    · cases vout with
      | error msg => simp [hk] at hres
      | ok p' =>
        simp [hk] at hres
        simp [hres]
/-- Witness for the amended C10: a failing jwt.verify callback surfaces as
the single verification error. -/
theorem c10_verify_failure_amended_witness :
    (verifyAccessTokenSeq (some ⟨some "K1"⟩) ⟨[("K1", "PK1")], 100, 60000⟩ 100
        100 .fail (.error "invalid signature")).result =
      .error (.verifyFailed "invalid signature") :=
  (c10_verify_failure_amended ⟨[("K1", "PK1")], 100, 60000⟩ 100 100 .fail
    (.error "invalid signature")).2.2.2.1 ⟨some "K1"⟩ "PK1" "invalid signature"
    (by decide) rfl
/-- Any further scheduling preserves the wedged state: no step can resolve
generation 0 or let a parked caller proceed. -/
theorem wedgedCfg_step (th : Int) (c : SCfg) (hW : WedgedCfg c) (ev : SEv) :
    WedgedCfg (sockStep false th c ev) := by
  obtain ⟨hL, hR, h0, hT⟩ := hW
  cases ev with
  | run tid t out =>
    by_cases htid : tid = 0
    · subst htid
      simp [sockStep, h0]
      exact ⟨hL, hR, h0, hT⟩
    · rcases hT tid htid with he | hw
      · simp only [sockStep, he, hL]
        refine ⟨rfl, hR, ?_, ?_⟩
        · show updT c.tasks tid (.waitLock 0) 0 = .done (.error ())
          simp only [updT]
          rw [if_neg (fun h => htid h.symm)]
          exact h0
        · intro i hi
          show updT c.tasks tid (.waitLock 0) i = .entry ∨
            updT c.tasks tid (.waitLock 0) i = .waitLock 0
          by_cases hit : i = tid
          · subst hit
            right
            simp [updT]
          · simp only [updT]
            rw [if_neg hit]
            exact hT i hi
      · simp [sockStep, hw, hR]
        exact ⟨hL, hR, h0, hT⟩
/-- The wedged state persists along any schedule. -/
theorem wedgedCfg_run (th : Int) (c : SCfg) (hW : WedgedCfg c)
    (evs : List SEv) : WedgedCfg (sockRun false th c evs) := by
  induction evs generalizing c with
  | nil => exact hW
  | cons ev rest ih => exact ih _ (wedgedCfg_step th c hW ev)
/-- C2 is violated by src/util/authSocket.ts: when silentTokenRefresh
rejects, the missing try/catch skips the unlock and the null assignment,
so the credentialRefreshLock is neither released nor reset; under every
continuation schedule each later _refreshCredentialsIfNecessary caller is
parked forever on the dead lock (it never completes, so connect and emit
block). By contrast the src/unnamed/part_000 variant and
Auth0Client.updateKeyCacheIfStale release and null their latch on the same
failure, the error still reaching the failed caller, and a subsequent
caller starts a fresh refresh. -/
theorem c2_failed_refresh_wedges_lock :
    (∀ evs2 : List SEv,
      WedgedCfg (sockRun false 10000
        (sockRun false 10000 (sockInit 0 "tok" (some "tok"))
          [.run 0 0 (.error ()), .run 0 0 (.error ())]) evs2)) ∧
    ((sockRun true 10000 (sockInit 0 "tok" (some "tok"))
        [.run 0 0 (.error ()), .run 0 0 (.error ())]).lockGen = none ∧
      (sockRun true 10000 (sockInit 0 "tok" (some "tok"))
        [.run 0 0 (.error ()), .run 0 0 (.error ())]).resolved = [0] ∧
      (sockRun true 10000 (sockInit 0 "tok" (some "tok"))
        [.run 0 0 (.error ()), .run 0 0 (.error ())]).tasks 0 =
          .done (.error ()) ∧
      (sockRun true 10000 (sockInit 0 "tok" (some "tok"))
        [.run 0 0 (.error ()), .run 0 0 (.error ()),
          .run 1 0 (.error ())]).refreshCalls = 2 ∧
      (sockRun true 10000 (sockInit 0 "tok" (some "tok"))
        [.run 0 0 (.error ()), .run 0 0 (.error ()),
          .run 1 0 (.error ())]).tasks 1 = .inRefresh) ∧
    ((aRun (aInit [("K1", "PK1")] 0 60000 (fun _ => some "K1"))
        [.run 0 100000 .fail, .run 0 100000 .fail]).deferGen = none ∧
      (aRun (aInit [("K1", "PK1")] 0 60000 (fun _ => some "K1"))
        [.run 0 100000 .fail, .run 0 100000 .fail]).resolved = [0] ∧
      (aRun (aInit [("K1", "PK1")] 0 60000 (fun _ => some "K1"))
        [.run 0 100000 .fail, .run 0 100000 .fail]).tasks 0 =
          .done (.error .fetchFailed) ∧
      (aRun (aInit [("K1", "PK1")] 0 60000 (fun _ => some "K1"))
        [.run 0 100000 .fail, .run 0 100000 .fail]).core =
          ⟨[("K1", "PK1")], 0, 60000⟩) := by
  refine ⟨?_, ?_, ?_⟩
  · intro evs2
    apply wedgedCfg_run
    refine ⟨rfl, rfl, rfl, ?_⟩
    intro i hi
    left
    simp [sockRun, sockStep, sockGuardSeg, sockInit, updT, hi]
  · refine ⟨rfl, rfl, rfl, rfl, rfl⟩
  · refine ⟨rfl, rfl, rfl, rfl⟩
/-- C3 counterexample: the error of a failed fetch does not propagate to
the waiters that joined the attempt. Caller 1 joins the deferJWKRequest of
caller 0 (after the second event it is parked on generation 0); caller 0
fails with the fetch error, but caller 1 resumes via the resolved (not
rejected) latch, quietly starts its own rebuild and completes with the
key, never observing any error. -/
theorem c3_waiter_not_observing_error_cex :
    ((aRun (aInit [("K1", "PK1")] 0 60000 (fun _ => some "K1"))
        [.run 0 100000 .fail, .run 1 100000 .fail]).tasks 1 =
      .waitDefer1 (some "K1") 0) ∧
    ((aRun (aInit [("K1", "PK1")] 0 60000 (fun _ => some "K1"))
        [.run 0 100000 .fail, .run 1 100000 .fail, .run 0 100000 .fail,
          .run 1 100000 .fail,
          .run 1 100000 (.ok [⟨"RSA", "K1", "RS256", "sig", ["c1"], "", ""⟩]),
          .run 1 100000 .fail]).tasks 0 = .done (.error .fetchFailed)) ∧
    ((aRun (aInit [("K1", "PK1")] 0 60000 (fun _ => some "K1"))
        [.run 0 100000 .fail, .run 1 100000 .fail, .run 0 100000 .fail,
          .run 1 100000 .fail,
          .run 1 100000 (.ok [⟨"RSA", "K1", "RS256", "sig", ["c1"], "", ""⟩]),
          .run 1 100000 .fail]).tasks 1 = .done (.ok (certToPEM "c1"))) := by
  refine ⟨rfl, rfl, rfl⟩
/-- C3 amended: a failed external refresh or fetch leaves every piece of
previously cached state unchanged and the error propagates to the caller
that owned the attempt; the waiters that joined it are released through
the resolved latch and do not observe the error: each re-attempts the
refresh itself on resumption, and likewise any later call finds the state
still stale and retries (failures are not cached). In authSocket.ts the
further callers are instead blocked by the unreleased lock (claim C2). -/
theorem c3_failed_fetch_preserves_state :
    (∀ (c : ACfg) (tid : Nat) (kid : Option String) (g : Nat) (t : Int),
      c.tasks tid = .inFetch kid g →
      (aStep c (.run tid t .fail)).core = c.core ∧
      (aStep c (.run tid t .fail)).deferGen = none ∧
      g ∈ (aStep c (.run tid t .fail)).resolved ∧
      (aStep c (.run tid t .fail)).tasks tid = .done (.error .fetchFailed)) ∧
    (∀ (c : ACfg) (tid : Nat) (kid : Option String) (g : Nat) (t : Int)
        (out : FetchOut),
      c.tasks tid = .waitDefer1 kid g → g ∈ c.resolved →
      c.deferGen = none → cacheIsStale c.core t = true →
      (aStep c (.run tid t out)).fetchCalls = c.fetchCalls + 1 ∧
      (aStep c (.run tid t out)).tasks tid = .inFetch kid c.nextGen) ∧
    (∀ (c : ACfg) (tid : Nat) (kid : Option String) (t : Int)
        (out : FetchOut),
      c.tasks tid = .entry kid → c.deferGen = none →
      cacheIsStale c.core t = true →
      (aStep c (.run tid t out)).fetchCalls = c.fetchCalls + 1 ∧
      (aStep c (.run tid t out)).tasks tid = .inFetch kid c.nextGen) ∧
    (∀ (cv : Bool) (th : Int) (c : SCfg) (tid : Nat) (t : Int),
      c.tasks tid = .inRefresh →
      (sockStep cv th c (.run tid t (.error ()))).credentialsExpiresAt =
        c.credentialsExpiresAt ∧
      (sockStep cv th c (.run tid t (.error ()))).authToken = c.authToken ∧
      (sockStep cv th c (.run tid t (.error ()))).serviceExpire =
        c.serviceExpire ∧
      (sockStep cv th c (.run tid t (.error ()))).tasks tid =
        .done (.error ()) ∧
      (cv = true → (sockStep cv th c (.run tid t (.error ()))).lockGen = none ∧
        ∀ g, c.lockGen = some g →
          g ∈ (sockStep cv th c (.run tid t (.error ()))).resolved) ∧
      (cv = false → (sockStep cv th c (.run tid t (.error ()))).lockGen =
        c.lockGen ∧
        (sockStep cv th c (.run tid t (.error ()))).resolved = c.resolved)) := by
  refine ⟨?_, ?_, ?_, ?_⟩
  · intro c tid kid g t h
    simp [aStep, h, updT]
  · intro c tid kid g t out h hg hd hst
    simp [aStep, h, hg, hd, aStaleSeg, hst, updT]
  · intro c tid kid t out h hd hst
    simp [aStep, h, hd, aStaleSeg, hst, updT]
  · intro cv th c tid t h
    cases cv with
    | false =>
      simp [sockStep, h, updT]
    | true =>
      rcases hL : c.lockGen with _ | g0
      · simp [sockStep, h, hL, updT]
      · simp [sockStep, h, hL, updT]
/-- Witness for the amended C3: the failing fetch of the concrete owner
task leaves the concrete cache untouched, releases the latch and fails
only that owner. -/
theorem c3_failed_fetch_preserves_state_witness :
    (aStep ⟨⟨[("K1", "PK1")], 0, 60000⟩, some 0, 1, [], 1,
        updT (fun _ => .entry (some "K1")) 0 (.inFetch (some "K1") 0)⟩
      (.run 0 100000 .fail)).core = ⟨[("K1", "PK1")], 0, 60000⟩ ∧
    (aStep ⟨⟨[("K1", "PK1")], 0, 60000⟩, some 0, 1, [], 1,
        updT (fun _ => .entry (some "K1")) 0 (.inFetch (some "K1") 0)⟩
      (.run 0 100000 .fail)).deferGen = none ∧
    0 ∈ (aStep ⟨⟨[("K1", "PK1")], 0, 60000⟩, some 0, 1, [], 1,
        updT (fun _ => .entry (some "K1")) 0 (.inFetch (some "K1") 0)⟩
      (.run 0 100000 .fail)).resolved ∧
    (aStep ⟨⟨[("K1", "PK1")], 0, 60000⟩, some 0, 1, [], 1,
        updT (fun _ => .entry (some "K1")) 0 (.inFetch (some "K1") 0)⟩
      (.run 0 100000 .fail)).tasks 0 = .done (.error .fetchFailed) :=
  c3_failed_fetch_preserves_state.1
    ⟨⟨[("K1", "PK1")], 0, 60000⟩, some 0, 1, [], 1,
      updT (fun _ => .entry (some "K1")) 0 (.inFetch (some "K1") 0)⟩
    0 (some "K1") 0 100000 rfl
/-- One step preserves the emit-machine invariant. -/
theorem eInv_step (c : ECfg) (ev : EEv) (rest : List EEv)
    (h : EInv c (ev :: rest)) : EInv (eStep c ev) rest := by
  rcases h with ⟨hp, hc⟩ | ⟨hp, hc⟩ | ⟨hp, hc⟩
  · -- phase 0
    obtain ⟨h1, h2, h3, h4, h5, h6⟩ := hp
    cases ev with
    | connect =>
      have hstep : eStep c .connect = c := by simp [eStep, h1]
      rw [hstep]
      left
      refine ⟨⟨h1, h2, h3, h4, h5, h6⟩, ?_⟩
      simp only [eTrueCount_cons_true, eTrueCount_cons_false, eTrueCount_cons_connect] at hc
      omega
    | run tid r =>
      rcases h6 tid with ht | ht | ht
      · have hstep : eStep c (.run tid r) =
            { c with tasks := updT c.tasks tid .inRefresh } := by
          simp [eStep, ht]
        rw [hstep]
        left
        refine ⟨⟨h1, h2, h3, h4, h5, ?_⟩, ?_⟩
        · intro i
          by_cases hit : i = tid
          · subst hit
            right; left
            simp [updT]
          · simp only [updT]
            rw [if_neg hit]
            exact h6 i
        · cases r <;> simp only [eTrueCount_cons_true, eTrueCount_cons_false] at hc <;> omega
      · cases r with
        | true =>
          have hstep : eStep c (.run tid true) =
              { c with reconnecting := true,
                       emitLockGen := some c.nextGen,
                       pendingConnect := c.pendingConnect ++ [c.nextGen],
                       nextGen := c.nextGen + 1,
                       tasks := updT c.tasks tid (.waitEmit c.nextGen) } := by
            simp [eStep, ht]
          rw [hstep]
          right; left
          constructor
          · refine ⟨rfl, ?_, ?_, h4, ?_, ?_⟩
            · simp [h5]
            · simp [h3, h5]
            · simp [h5]
            · intro i
              by_cases hit : i = tid
              · subst hit
                right; right; left
                simp [updT, h5]
              · simp only [updT]
                rw [if_neg hit]
                rcases h6 i with hi | hi | hi
                · exact Or.inl hi
                · exact Or.inr (Or.inl hi)
                · exact Or.inr (Or.inr (Or.inr hi))
          · simp only [eTrueCount_cons_true, eTrueCount_cons_false, eTrueCount_cons_connect] at hc
            omega
        | false =>
          have hstep : eStep c (.run tid false) =
              { c with emits := c.emits ++ [tid],
                       tasks := updT c.tasks tid .done } := by
            simp [eStep, ht, h2]
          rw [hstep]
          left
          refine ⟨⟨h1, h2, h3, h4, h5, ?_⟩, ?_⟩
          · intro i
            by_cases hit : i = tid
            · subst hit
              right; right
              simp [updT]
            · simp only [updT]
              rw [if_neg hit]
              exact h6 i
          · simp only [eTrueCount_cons_true, eTrueCount_cons_false, eTrueCount_cons_connect] at hc
            omega
      · have hstep : eStep c (.run tid r) = c := by simp [eStep, ht]
        rw [hstep]
        left
        refine ⟨⟨h1, h2, h3, h4, h5, h6⟩, ?_⟩
        cases r <;> simp only [eTrueCount_cons_true, eTrueCount_cons_false] at hc <;> omega
  · -- phase 1
    obtain ⟨h1, h2, h3, h4, h5, h6⟩ := hp
    cases ev with
    | connect =>
      have hstep : eStep c .connect =
          { c with reconnecting := false,
                   resolvedE := c.resolvedE ++ c.pendingConnect,
                   pendingConnect := [] } := by
        simp [eStep, h1]
      rw [hstep]
      right; right
      refine ⟨⟨rfl, Or.inl h2, rfl, ?_, h5, h6⟩, ?_⟩
      · simp [h4, h3]
      · simp only [eTrueCount_cons_true, eTrueCount_cons_false, eTrueCount_cons_connect] at hc
        omega
    | run tid r =>
      cases r with
      | true =>
        exfalso
        simp only [eTrueCount_cons_true, eTrueCount_cons_false, eTrueCount_cons_connect] at hc
        omega
      | false =>
        have hc' : eTrueCount rest = 0 := by
          simp only [eTrueCount_cons_true, eTrueCount_cons_false, eTrueCount_cons_connect] at hc
          omega
        rcases h6 tid with ht | ht | ht | ht
        · have hstep : eStep c (.run tid false) =
              { c with tasks := updT c.tasks tid .inRefresh } := by
            simp [eStep, ht]
          rw [hstep]
          right; left
          refine ⟨⟨h1, h2, h3, h4, h5, ?_⟩, hc'⟩
          intro i
          by_cases hit : i = tid
          · subst hit
            right; left
            simp [updT]
          · simp only [updT]
            rw [if_neg hit]
            exact h6 i
        · have hstep : eStep c (.run tid false) =
              { c with tasks := updT c.tasks tid (.waitEmit 0) } := by
            simp [eStep, ht, h2]
          rw [hstep]
          right; left
          refine ⟨⟨h1, h2, h3, h4, h5, ?_⟩, hc'⟩
          intro i
          by_cases hit : i = tid
          · subst hit
            right; right; left
            simp [updT]
          · simp only [updT]
            rw [if_neg hit]
            exact h6 i
        · have hstep : eStep c (.run tid false) = c := by
            simp [eStep, ht, h4]
          rw [hstep]
          right; left
          exact ⟨⟨h1, h2, h3, h4, h5, h6⟩, hc'⟩
        · have hstep : eStep c (.run tid false) = c := by simp [eStep, ht]
          rw [hstep]
          right; left
          exact ⟨⟨h1, h2, h3, h4, h5, h6⟩, hc'⟩
  · -- phase 2
    obtain ⟨h1, h2, h3, h4, h5, h6⟩ := hp
    cases ev with
    | connect =>
      have hstep : eStep c .connect = c := by simp [eStep, h1]
      rw [hstep]
      right; right
      refine ⟨⟨h1, h2, h3, h4, h5, h6⟩, ?_⟩
      simp only [eTrueCount_cons_true, eTrueCount_cons_false,
        eTrueCount_cons_connect] at hc
      exact hc
    | run tid r =>
      cases r with
      | true =>
        exfalso
        simp only [eTrueCount_cons_true, eTrueCount_cons_false, eTrueCount_cons_connect] at hc
        omega
      | false =>
        have hc' : eTrueCount rest = 0 := by
          simp only [eTrueCount_cons_true, eTrueCount_cons_false, eTrueCount_cons_connect] at hc
          omega
        rcases h6 tid with ht | ht | ht | ht
        · have hstep : eStep c (.run tid false) =
              { c with tasks := updT c.tasks tid .inRefresh } := by
            simp [eStep, ht]
          rw [hstep]
          right; right
          refine ⟨⟨h1, h2, h3, h4, h5, ?_⟩, hc'⟩
          intro i
          by_cases hit : i = tid
          · subst hit
            right; left
            simp [updT]
          · simp only [updT]
            rw [if_neg hit]
            exact h6 i
        · rcases h2 with hL | hL
          · have hstep : eStep c (.run tid false) =
                { c with tasks := updT c.tasks tid (.waitEmit 0) } := by
              simp [eStep, ht, hL]
            rw [hstep]
            right; right
            refine ⟨⟨h1, Or.inl hL, h3, h4, h5, ?_⟩, hc'⟩
            intro i
            by_cases hit : i = tid
            · subst hit
              right; right; left
              simp [updT]
            · simp only [updT]
              rw [if_neg hit]
              exact h6 i
          · have hstep : eStep c (.run tid false) =
                { c with emits := c.emits ++ [tid],
                         tasks := updT c.tasks tid .done } := by
              simp [eStep, ht, hL]
            rw [hstep]
            right; right
            refine ⟨⟨h1, Or.inr hL, h3, h4, h5, ?_⟩, hc'⟩
            intro i
            by_cases hit : i = tid
            · subst hit
              right; right; right
              simp [updT]
            · simp only [updT]
              rw [if_neg hit]
              exact h6 i
        · have hstep : eStep c (.run tid false) =
              { c with emitLockGen := none, emits := c.emits ++ [tid],
                       tasks := updT c.tasks tid .done } := by
            simp [eStep, ht, h4]
          rw [hstep]
          right; right
          refine ⟨⟨h1, Or.inr rfl, h3, h4, h5, ?_⟩, hc'⟩
          intro i
          by_cases hit : i = tid
          · subst hit
            right; right; right
            simp [updT]
          · simp only [updT]
            rw [if_neg hit]
            exact h6 i
        · have hstep : eStep c (.run tid false) = c := by simp [eStep, ht]
          rw [hstep]
          right; right
          exact ⟨⟨h1, h2, h3, h4, h5, h6⟩, hc'⟩
/-- The invariant carries over any executed prefix of the schedule. -/
theorem eInv_run (p rest : List EEv) : ∀ c : ECfg, EInv c (p ++ rest) →
    EInv (eRun c p) rest := by
  induction p with
  | nil =>
    intro c h
    exact h
  | cons ev p ih =>
    intro c h
    exact ih (eStep c ev) (eInv_step c ev (p ++ rest) h)
/-- Under the invariant, no step can grow the emit log while the
reconnection is pending: in phase 1 every path either parks the caller on
the unresolved lock or leaves the configuration unchanged. -/
theorem eInv_no_emit_while_reconnecting (c : ECfg) (evs : List EEv)
    (h : EInv c evs) (ev : EEv)
    (hgrow : c.emits.length < (eStep c ev).emits.length) :
    c.reconnecting = false := by
  rcases h with ⟨hp, -⟩ | ⟨hp, -⟩ | ⟨hp, -⟩
  · exact hp.1
  · exfalso
    obtain ⟨h1, h2, h3, h4, h5, h6⟩ := hp
    cases ev with
    | connect => simp [eStep, h1] at hgrow
    | run tid r =>
      rcases h6 tid with ht | ht | ht | ht
      · simp [eStep, ht] at hgrow
      · cases r with
        | true => simp [eStep, ht] at hgrow
        | false => simp [eStep, ht, h2] at hgrow
      · simp [eStep, ht, h4] at hgrow
      · simp [eStep, ht] at hgrow
  · exact hp.1
/-- C9, confirmed for src/util/authSocket.ts under a single credential
rotation (the design notes declare a second rotation arriving mid
reconnect undefined): at no point of any schedule does an emit get issued
while the rotation reconnect is pending, and while it is pending every
gated emit waits on exactly the generation that the connect event of that
reconnection resolves. -/
theorem c9_emit_after_reconnect (evs p rest : List EEv) (e : EEv)
    (hsplit : evs = p ++ e :: rest) (hcnt : eTrueCount evs ≤ 1) :
    (((eRun eInit p).emits.length < (eStep (eRun eInit p) e).emits.length) →
      (eRun eInit p).reconnecting = false) ∧
    ((eRun eInit p).reconnecting = true →
      ∀ i g, (eRun eInit p).tasks i = .waitEmit g →
        g ∈ (eRun eInit p).pendingConnect) := by
  have hinit : EInv eInit (p ++ e :: rest) := by
    left
    constructor
    · exact ⟨rfl, rfl, rfl, rfl, rfl, fun i => Or.inl rfl⟩
    · rw [← hsplit]
      exact hcnt
  have hI : EInv (eRun eInit p) (e :: rest) := eInv_run p (e :: rest) eInit hinit
  constructor
  · intro hgrow
    exact eInv_no_emit_while_reconnecting _ _ hI e hgrow
  · intro hrec i g hw
    rcases hI with ⟨hp, -⟩ | ⟨hp, -⟩ | ⟨hp, -⟩
    · rw [hp.1] at hrec
      exact Bool.noConfusion hrec
    · obtain ⟨h1, h2, h3, h4, h5, h6⟩ := hp
      rcases h6 i with ht | ht | ht | ht
      · exact absurd (hw.symm.trans ht) (by simp)
      · exact absurd (hw.symm.trans ht) (by simp)
      · have hg : g = 0 := by
          have := hw.symm.trans ht
          exact ETask.waitEmit.inj this
        rw [hg, h3]
        simp
      · exact absurd (hw.symm.trans ht) (by simp)
    · rw [hp.1] at hrec
      exact Bool.noConfusion hrec
/-- Witness for C9: a concrete schedule in which caller 0 rotates the
credential, caller 1 arrives while the reconnect is pending, the connect
event fires, and the gated emit of caller 1 then proceeds. -/
theorem c9_emit_after_reconnect_witness :
    (((eRun eInit [.run 0 false, .run 0 true, .run 1 false, .run 1 false,
          .connect]).emits.length <
        (eStep (eRun eInit [.run 0 false, .run 0 true, .run 1 false,
          .run 1 false, .connect]) (.run 1 false)).emits.length) →
      (eRun eInit [.run 0 false, .run 0 true, .run 1 false, .run 1 false,
        .connect]).reconnecting = false) ∧
    ((eRun eInit [.run 0 false, .run 0 true, .run 1 false, .run 1 false,
        .connect]).reconnecting = true →
      ∀ i g, (eRun eInit [.run 0 false, .run 0 true, .run 1 false,
          .run 1 false, .connect]).tasks i = .waitEmit g →
        g ∈ (eRun eInit [.run 0 false, .run 0 true, .run 1 false,
          .run 1 false, .connect]).pendingConnect) :=
  c9_emit_after_reconnect
    [.run 0 false, .run 0 true, .run 1 false, .run 1 false, .connect,
      .run 1 false]
    [.run 0 false, .run 0 true, .run 1 false, .run 1 false, .connect]
    [] (.run 1 false) rfl (by decide)
/-- C9 counterexample: the claim fails on the sources as stated. In the
src/unnamed/part_000 variant of _authEmit the emit call is issued in the
same segment that begins the reconnect, before any connect event: after
the rotation of caller 0 the machine has already emitted while
reconnecting is still true. In src/util/authSocket.ts the guarantee also
breaks when a second rotation arrives mid reconnect (left undefined by the
design notes): caller 0, whose own earlier reconnection completed, emits
while the reconnection of caller 1 is still pending. -/
theorem c9_part000_emits_before_reconnect_cex :
    ((pRun pInit [.run 0 true, .run 0 true]).reconnecting = true ∧
      (pRun pInit [.run 0 true, .run 0 true]).emits = [0]) ∧
    ((eRun eInit [.run 0 true, .run 0 true, .connect, .run 1 false,
        .run 1 true]).reconnecting = true ∧
      (eRun eInit [.run 0 true, .run 0 true, .connect, .run 1 false,
        .run 1 true]).emits = [] ∧
      (eRun eInit [.run 0 true, .run 0 true, .connect, .run 1 false,
        .run 1 true, .run 0 false]).reconnecting = true ∧
      (eRun eInit [.run 0 true, .run 0 true, .connect, .run 1 false,
        .run 1 true, .run 0 false]).emits = [0]) := by
  refine ⟨⟨rfl, rfl⟩, rfl, rfl, rfl, rfl⟩
/-- sockStep characterization: a task entering while the lock is null runs
the guard segment directly. -/
theorem sockStep_entry_none (cv : Bool) (th : Int) (c : SCfg) (tid : Nat)
    (t : Int) (out : Except Unit (Int × String))
    (ht : c.tasks tid = .entry) (hl : c.lockGen = none) :
    sockStep cv th c (.run tid t out) = sockGuardSeg th c tid t := by
  simp [sockStep, ht, hl]
/-- sockStep characterization: a task entering while a lock is installed
parks on that lock. -/
theorem sockStep_entry_some (cv : Bool) (th : Int) (c : SCfg) (tid : Nat)
    (t : Int) (out : Except Unit (Int × String)) (g : Nat)
    (ht : c.tasks tid = .entry) (hl : c.lockGen = some g) :
    sockStep cv th c (.run tid t out) =
      { c with tasks := updT c.tasks tid (.waitLock g) } := by
  simp [sockStep, ht, hl]
/-- sockStep characterization: a parked task whose lock generation has
been resolved resumes into the guard segment. -/
theorem sockStep_wait_mem (cv : Bool) (th : Int) (c : SCfg) (tid : Nat)
    (t : Int) (out : Except Unit (Int × String)) (g : Nat)
    (ht : c.tasks tid = .waitLock g) (hg : g ∈ c.resolved) :
    sockStep cv th c (.run tid t out) = sockGuardSeg th c tid t := by
  simp [sockStep, ht, hg]
/-- sockStep characterization: a parked task whose lock generation is
unresolved is not runnable. -/
theorem sockStep_wait_nomem (cv : Bool) (th : Int) (c : SCfg) (tid : Nat)
    (t : Int) (out : Except Unit (Int × String)) (g : Nat)
    (ht : c.tasks tid = .waitLock g) (hg : g ∉ c.resolved) :
    sockStep cv th c (.run tid t out) = c := by
  simp [sockStep, ht, hg]
/-- sockStep characterization: successful resumption from
silentTokenRefresh while a lock is installed: the service state advances,
the lock is resolved and nulled, _addCredentials installs the fresh
credential, and the owner returns true. -/
theorem sockStep_refresh_ok (cv : Bool) (th : Int) (c : SCfg) (tid : Nat)
    (t : Int) (e : Int) (s : String) (g : Nat)
    (ht : c.tasks tid = .inRefresh) (hl : c.lockGen = some g) :
    sockStep cv th c (.run tid t (.ok (e, s))) =
      ⟨e, some s, none, c.nextGen, g :: c.resolved, e, s, c.refreshCalls,
        updT c.tasks tid (.done (.ok true))⟩ := by
  simp [sockStep, ht, hl]
/-- sockStep characterization: a finished task is never runnable. -/
theorem sockStep_done (cv : Bool) (th : Int) (c : SCfg) (tid : Nat)
    (t : Int) (out : Except Unit (Int × String)) (r : Except Unit Bool)
    (ht : c.tasks tid = .done r) :
    sockStep cv th c (.run tid t out) = c := by
  simp [sockStep, ht]
/-- Guard segment characterization: the fast path. -/
theorem sockGuardSeg_fast (th : Int) (c : SCfg) (tid : Nat) (t : Int)
    (h1 : c.credentialsExpiresAt - t ≥ th)
    (h2 : c.credentialsExpiresAt = c.serviceExpire) :
    sockGuardSeg th c tid t =
      { c with tasks := updT c.tasks tid (.done (.ok false)) } := by
  unfold sockGuardSeg
  rw [if_pos ⟨h1, h2⟩]
/-- Guard segment characterization: the refresh branch entered with no
lock installed creates the lock and suspends at silentTokenRefresh. -/
theorem sockGuardSeg_refresh_none (th : Int) (c : SCfg) (tid : Nat) (t : Int)
    (h1 : ¬(c.credentialsExpiresAt - t ≥ th ∧
      c.credentialsExpiresAt = c.serviceExpire))
    (h2 : c.serviceExpire - t < th) (hl : c.lockGen = none) :
    sockGuardSeg th c tid t =
      ⟨c.credentialsExpiresAt, c.authToken, some c.nextGen, c.nextGen + 1,
        c.resolved, c.serviceExpire, c.serviceToken, c.refreshCalls + 1,
        updT c.tasks tid .inRefresh⟩ := by
  unfold sockGuardSeg
  rw [if_neg h1, if_pos h2]
  simp [hl]
/-- Guard segment characterization: the out-of-sync branch (no external
call) pulls the service credential synchronously and returns true. -/
theorem sockGuardSeg_sync (th : Int) (c : SCfg) (tid : Nat) (t : Int)
    (h1 : ¬(c.credentialsExpiresAt - t ≥ th ∧
      c.credentialsExpiresAt = c.serviceExpire))
    (h2 : ¬(c.serviceExpire - t < th)) :
    sockGuardSeg th c tid t =
      { c with credentialsExpiresAt := c.serviceExpire,
               authToken := some c.serviceToken,
               tasks := updT c.tasks tid (.done (.ok true)) } := by
  unfold sockGuardSeg
  rw [if_neg h1, if_neg h2]
/-- One scheduled event preserves the single-flight invariant, for either
source variant. -/
theorem sInv_step (cv : Bool) (th e0 e1 : Int) (tok0 tok1 : String)
    (a0 : Option String) (c : SCfg) (ev : SEv)
    (hev : sevOK th e0 e1 tok1 ev = true)
    (h : SInv e0 e1 tok0 tok1 a0 c) :
    SInv e0 e1 tok0 tok1 a0 (sockStep cv th c ev) := by
  cases ev with
  | run tid t out =>
    have hev' : (e0 - t < th ∧ th ≤ e1 - t) ∧ out = .ok (e1, tok1) := by
      simpa [sevOK, Bool.and_eq_true, decide_eq_true_eq] using hev
    obtain ⟨⟨he0, he1⟩, hout⟩ := hev'
    subst hout
    rcases h with hA | hB | hC
    · -- phase A: the first scheduled task becomes the owner
      obtain ⟨hrc, hse, hst, hce, hat, hlg, hng, hrs, htk⟩ := hA
      rw [sockStep_entry_none cv th c tid t _ (htk tid) hlg]
      rw [sockGuardSeg_refresh_none th c tid t
        (by rw [hce]; rintro ⟨hx, -⟩; omega)
        (by rw [hse]; exact he0) hlg]
      right; left
      refine ⟨by simp [hrc], by simp [hse], by simp [hst], by simp [hce],
        by simp [hat], by simp [hng], by simp [hng], by simp [hrs], ?_⟩
      refine ⟨tid, by simp [updT], ?_⟩
      intro i hi
      left
      simp only [updT]
      rw [if_neg hi]
      exact htk i
    · -- phase B
      obtain ⟨hrc, hse, hst, hce, hat, hlg, hng, hrs, j, hj, hothers⟩ := hB
      by_cases hj' : tid = j
      · subst hj'
        rw [sockStep_refresh_ok cv th c tid t e1 tok1 0 hj hlg]
        right; right
        refine ⟨by simp [hrc], rfl, rfl, rfl, rfl, rfl, by simp [hng],
          by simp [hrs], ?_⟩
        refine ⟨tid, by simp [updT], ?_⟩
        intro i hi
        simp only [updT]
        rw [if_neg hi]
        rcases hothers i hi with hii | hii
        · exact Or.inl hii
        · exact Or.inr (Or.inl hii)
      · rcases hothers tid hj' with ht | ht
        · rw [sockStep_entry_some cv th c tid t _ 0 ht hlg]
          right; left
          refine ⟨hrc, hse, hst, hce, hat, hlg, hng, hrs, j, ?_, ?_⟩
          · simp only [updT]
            rw [if_neg (fun hc => hj' hc.symm)]
            exact hj
          · intro i hi
            by_cases hit : i = tid
            · subst hit
              right
              simp [updT]
            · simp only [updT]
              rw [if_neg hit]
              exact hothers i hi
        · rw [sockStep_wait_nomem cv th c tid t _ 0 ht (by rw [hrs]; simp)]
          exact Or.inr (Or.inl ⟨hrc, hse, hst, hce, hat, hlg, hng, hrs, j,
            hj, hothers⟩)
    · -- phase C
      obtain ⟨hrc, hse, hst, hce, hat, hlg, hng, hrs, j, hj, hothers⟩ := hC
      by_cases hj' : tid = j
      · subst hj'
        rw [sockStep_done cv th c tid t _ _ hj]
        exact Or.inr (Or.inr ⟨hrc, hse, hst, hce, hat, hlg, hng, hrs, tid,
          hj, hothers⟩)
      · have hfast : sockGuardSeg th c tid t =
            { c with tasks := updT c.tasks tid (.done (.ok false)) } :=
          sockGuardSeg_fast th c tid t (by rw [hce]; omega)
            (by rw [hce, hse])
        have hkeep : SPhaseC e1 tok1
            { c with tasks := updT c.tasks tid (.done (.ok false)) } := by
          refine ⟨hrc, hse, hst, hce, hat, hlg, hng, hrs, j, ?_, ?_⟩
          · simp only [updT]
            rw [if_neg (fun hc => hj' hc.symm)]
            exact hj
          · intro i hi
            by_cases hit : i = tid
            · subst hit
              right; right
              simp [updT]
            · simp only [updT]
              rw [if_neg hit]
              exact hothers i hi
        rcases hothers tid hj' with ht | ht | ht
        · rw [sockStep_entry_none cv th c tid t _ ht hlg, hfast]
          exact Or.inr (Or.inr hkeep)
        · rw [sockStep_wait_mem cv th c tid t _ 0 ht (by rw [hrs]; simp),
            hfast]
          exact Or.inr (Or.inr hkeep)
        · rw [sockStep_done cv th c tid t _ _ ht]
          exact Or.inr (Or.inr ⟨hrc, hse, hst, hce, hat, hlg, hng, hrs, j,
            hj, hothers⟩)
/-- The single-flight invariant carries over any schedule whose events all
satisfy the episode side conditions. -/
theorem sInv_run (cv : Bool) (th e0 e1 : Int) (tok0 tok1 : String)
    (a0 : Option String) (evs : List SEv)
    (hOK : ∀ ev ∈ evs, sevOK th e0 e1 tok1 ev = true) :
    ∀ c, SInv e0 e1 tok0 tok1 a0 c →
      SInv e0 e1 tok0 tok1 a0 (sockRun cv th c evs) := by
  induction evs with
  | nil => intro c h; exact h
  | cons ev rest ih =>
    intro c h
    exact ih (fun x hx => hOK x (List.mem_cons_of_mem ev hx)) (sockStep cv th c ev)
      (sInv_step cv th e0 e1 tok0 tok1 a0 c ev (hOK ev (List.mem_cons_self ev rest)) h)
/-- aStep characterization: entering getSigningKey with no defer promise
installed runs straight into the staleness segment. -/
theorem aStep_entry_none (c : ACfg) (tid : Nat) (t : Int) (out : FetchOut)
    (kid : Option String) (ht : c.tasks tid = .entry kid)
    (hd : c.deferGen = none) :
    aStep c (.run tid t out) = aStaleSeg c tid kid t := by
  simp [aStep, ht, hd]
/-- aStep characterization: entering getSigningKey while a defer promise
is installed parks at its first await. -/
theorem aStep_entry_some (c : ACfg) (tid : Nat) (t : Int) (out : FetchOut)
    (kid : Option String) (g : Nat) (ht : c.tasks tid = .entry kid)
    (hd : c.deferGen = some g) :
    aStep c (.run tid t out) =
      { c with tasks := updT c.tasks tid (.waitDefer1 kid g) } := by
  simp [aStep, ht, hd]
/-- aStep characterization: resuming the first defer await with no new
defer installed proceeds into the staleness segment. -/
theorem aStep_wait1_mem_none (c : ACfg) (tid : Nat) (t : Int)
    (out : FetchOut) (kid : Option String) (g : Nat)
    (ht : c.tasks tid = .waitDefer1 kid g) (hg : g ∈ c.resolved)
    (hd : c.deferGen = none) :
    aStep c (.run tid t out) = aStaleSeg c tid kid t := by
  simp [aStep, ht, hg, hd]
/-- aStep characterization: an unresolved defer waiter is not runnable. -/
theorem aStep_wait1_nomem (c : ACfg) (tid : Nat) (t : Int) (out : FetchOut)
    (kid : Option String) (g : Nat) (ht : c.tasks tid = .waitDefer1 kid g)
    (hg : g ∉ c.resolved) :
    aStep c (.run tid t out) = c := by
  simp [aStep, ht, hg]
/-- aStep characterization: the getJwks request of the fetch owner
settles successfully and the rebuild installs cleanly: the whole map is
replaced, lastUpdatedAt stamped, the defer promise nulled and resolved. -/
theorem aStep_fetch_ok (c : ACfg) (tid : Nat) (t : Int)
    (kid : Option String) (g : Nat) (ks : List JWK) (m1 : JwksMap)
    (ht : c.tasks tid = .inFetch kid g) (hm1 : runKeys ks [] = .ok m1) :
    aStep c (.run tid t (.ok ks)) =
      { c with core := ⟨m1, t, c.core.cacheTime⟩, deferGen := none,
               resolved := g :: c.resolved,
               tasks := updT c.tasks tid (.postUpdate kid) } := by
  simp [aStep, ht, updateKeyCache, hm1]
/-- aStep characterization: the final lookup of a resumed caller. -/
theorem aStep_post (c : ACfg) (tid : Nat) (t : Int) (out : FetchOut)
    (kid : Option String) (ht : c.tasks tid = .postUpdate kid) :
    aStep c (.run tid t out) =
      { c with
          tasks := updT c.tasks tid (.done (lookupResult c.core.JWKS kid)) } := by
  simp [aStep, ht]
/-- aStep characterization: a finished task is never runnable. -/
theorem aStep_done (c : ACfg) (tid : Nat) (t : Int) (out : FetchOut)
    (r : Except KeyErr String) (ht : c.tasks tid = .done r) :
    aStep c (.run tid t out) = c := by
  simp [aStep, ht]
/-- Staleness segment characterization: a stale cache makes the caller
the fetch owner. -/
theorem aStaleSeg_stale (c : ACfg) (tid : Nat) (kid : Option String)
    (t : Int) (hst : cacheIsStale c.core t = true) :
    aStaleSeg c tid kid t =
      { c with deferGen := some c.nextGen, nextGen := c.nextGen + 1,
               fetchCalls := c.fetchCalls + 1,
               tasks := updT c.tasks tid (.inFetch kid c.nextGen) } := by
  simp [aStaleSeg, hst]
/-- Staleness segment characterization: a fresh cache skips the rebuild
and leaves the caller resuming at its own await. -/
theorem aStaleSeg_fresh (c : ACfg) (tid : Nat) (kid : Option String)
    (t : Int) (hst : cacheIsStale c.core t = false) :
    aStaleSeg c tid kid t =
      { c with tasks := updT c.tasks tid (.postUpdate kid) } := by
  simp [aStaleSeg, hst]
/-- One scheduled event preserves the key-cache single-flight invariant. -/
theorem aInv_step (m0 : JwksMap) (u0 ttl : Int) (kids : Nat → Option String)
    (ks : List JWK) (m1 : JwksMap) (hm1 : runKeys ks [] = .ok m1)
    (c : ACfg) (ev : AEv) (rest : List AEv)
    (hev : aevOK ttl u0 ks ev = true)
    (hspan : ∀ ev' ∈ rest, aevTime ev' - aevTime ev ≤ ttl)
    (h : AInv m0 u0 ttl kids m1 (ev :: rest) c) :
    AInv m0 u0 ttl kids m1 rest (aStep c ev) := by
  cases ev with
  | run tid t out =>
    have hev' : (t - u0 > ttl) ∧ out = .ok ks := by
      simpa [aevOK, Bool.and_eq_true, decide_eq_true_eq] using hev
    obtain ⟨hstale0, hout⟩ := hev'
    subst hout
    rcases h with hA | hB | hC
    · -- phase A: the first scheduled task becomes the fetch owner
      obtain ⟨hfc, hcore, hd, hng, hrs, htk⟩ := hA
      rw [aStep_entry_none c tid t _ (kids tid) (htk tid) hd]
      rw [aStaleSeg_stale c tid (kids tid) t
        (by rw [hcore]; simp [cacheIsStale]; omega)]
      right; left
      refine ⟨by simp [hfc], by simp [hcore], by simp [hng], by simp [hng],
        by simp [hrs], tid, by simp [updT, hng], ?_⟩
      intro i hi
      left
      simp only [updT]
      rw [if_neg hi]
      exact htk i
    · -- phase B
      obtain ⟨hfc, hcore, hd, hng, hrs, j, hj, hothers⟩ := hB
      by_cases hj' : tid = j
      · subst hj'
        rw [aStep_fetch_ok c tid t (kids tid) 0 ks m1 hj hm1]
        right; right
        refine ⟨by simp [hfc], by simp, by simp [hcore], ?_, by simp,
          by simp [hng], by simp [hrs], ?_⟩
        · intro ev' hev'
          simpa using hspan ev' hev'
        · intro i
          by_cases hit : i = tid
          · subst hit
            right; right; left
            simp [updT]
          · simp only [updT]
            rw [if_neg hit]
            rcases hothers i hit with hi | hi
            · exact Or.inl hi
            · exact Or.inr (Or.inl hi)
      · rcases hothers tid hj' with ht | ht
        · rw [aStep_entry_some c tid t _ (kids tid) 0 ht hd]
          right; left
          refine ⟨hfc, hcore, hd, hng, hrs, j, ?_, ?_⟩
          · simp only [updT]
            rw [if_neg (fun hc => hj' hc.symm)]
            exact hj
          · intro i hi
            by_cases hit : i = tid
            · subst hit
              right
              simp [updT]
            · simp only [updT]
              rw [if_neg hit]
              exact hothers i hi
        · rw [aStep_wait1_nomem c tid t _ (kids tid) 0 ht (by rw [hrs]; simp)]
          exact Or.inr (Or.inl ⟨hfc, hcore, hd, hng, hrs, j, hj, hothers⟩)
    · -- phase C
      obtain ⟨hfc, hjw, hct, hfr, hd, hng, hrs, htk⟩ := hC
      have hfresh : cacheIsStale c.core t = false := by
        have := hfr (.run tid t (.ok ks)) (List.mem_cons_self _ _)
        simp [aevTime] at this
        simp [cacheIsStale, hct]
        omega
      have hC' : ∀ d : ACfg, d.fetchCalls = c.fetchCalls →
          d.core = c.core → d.deferGen = c.deferGen →
          d.nextGen = c.nextGen → d.resolved = c.resolved →
          (∀ i, d.tasks i = .entry (kids i) ∨
            d.tasks i = .waitDefer1 (kids i) 0 ∨
            d.tasks i = .postUpdate (kids i) ∨
            d.tasks i = .done (lookupResult m1 (kids i))) →
          APhaseC ttl kids m1 rest d := by
        intro d h1 h2 h3 h4 h5 h6
        refine ⟨h1.trans hfc, by rw [h2]; exact hjw, by rw [h2]; exact hct,
          ?_, h3.trans hd, h4.trans hng, h5.trans hrs, h6⟩
        intro ev' hev'
        rw [h2]
        exact hfr ev' (List.mem_cons_of_mem _ hev')
      have hupd : ∀ (v : ATask), (∀ i, i ≠ tid → True) →
          ∀ i, updT c.tasks tid v i = if i = tid then v else c.tasks i := by
        intro v _ i
        simp [updT]
      rcases htk tid with ht | ht | ht | ht
      · rw [aStep_entry_none c tid t _ (kids tid) ht hd,
          aStaleSeg_fresh c tid (kids tid) t hfresh]
        right; right
        refine hC' _ rfl rfl rfl rfl rfl ?_
        intro i
        by_cases hit : i = tid
        · subst hit
          right; right; left
          simp [updT]
        · simp only [updT]
          rw [if_neg hit]
          exact htk i
      · rw [aStep_wait1_mem_none c tid t _ (kids tid) 0 ht
          (by rw [hrs]; simp) hd,
          aStaleSeg_fresh c tid (kids tid) t hfresh]
        right; right
        refine hC' _ rfl rfl rfl rfl rfl ?_
        intro i
        by_cases hit : i = tid
        · subst hit
          right; right; left
          simp [updT]
        · simp only [updT]
          rw [if_neg hit]
          exact htk i
      · rw [aStep_post c tid t _ (kids tid) ht]
        right; right
        refine hC' _ rfl rfl rfl rfl rfl ?_
        intro i
        by_cases hit : i = tid
        · subst hit
          right; right; right
          simp [updT, hjw]
        · simp only [updT]
          rw [if_neg hit]
          exact htk i
      · rw [aStep_done c tid t _ _ ht]
        exact Or.inr (Or.inr ⟨hfc, hjw, hct, fun ev' hev' =>
          hfr ev' (List.mem_cons_of_mem _ hev'), hd, hng, hrs, htk⟩)
/-- The key-cache invariant carries over any schedule satisfying the
episode side conditions. -/
theorem aInv_run (m0 : JwksMap) (u0 ttl : Int) (kids : Nat → Option String)
    (ks : List JWK) (m1 : JwksMap) (hm1 : runKeys ks [] = .ok m1)
    (evs : List AEv) (hOK : ∀ ev ∈ evs, aevOK ttl u0 ks ev = true)
    (hspan : aSpanOK ttl evs = true) :
    ∀ c, AInv m0 u0 ttl kids m1 evs c →
      AInv m0 u0 ttl kids m1 [] (aRun c evs) := by
  induction evs with
  | nil => intro c h; exact h
  | cons ev rest ih =>
    intro c h
    have hsp : (∀ ev' ∈ rest, aevTime ev' - aevTime ev ≤ ttl) ∧
        aSpanOK ttl rest = true := by
      simpa [aSpanOK, Bool.and_eq_true, List.all_eq_true,
        decide_eq_true_eq] using hspan
    exact ih (fun x hx => hOK x (List.mem_cons_of_mem ev hx)) hsp.2
      (aStep c ev)
      (aInv_step m0 u0 ttl kids ks m1 hm1 c ev rest
        (hOK ev (List.mem_cons_self ev rest)) hsp.1 h)
/-- What the single-flight invariant says about any reachable socket
configuration: at most one refresh call; a caller returning false has
observed the installed refreshed credential; and once every caller is
finished, exactly one refresh happened, the refreshed credential is
installed, exactly one caller returned true and all others false. -/
theorem sInv_consequences (e0 e1 : Int) (tok0 tok1 : String)
    (a0 : Option String) (n : Nat) (c : SCfg)
    (h : SInv e0 e1 tok0 tok1 a0 c) :
    c.refreshCalls ≤ 1 ∧
    (∀ i, c.tasks i = .done (.ok false) →
      c.credentialsExpiresAt = e1 ∧ c.authToken = some tok1) ∧
    ((∀ i, i < n → ∃ r, c.tasks i = .done r) → 0 < n →
      c.refreshCalls = 1 ∧ c.credentialsExpiresAt = e1 ∧
      c.authToken = some tok1 ∧
      (∃ j, c.tasks j = .done (.ok true) ∧
        ∀ i, i ≠ j → c.tasks i ≠ .done (.ok true)) ∧
      ∀ i, i < n → c.tasks i = .done (.ok true) ∨
        c.tasks i = .done (.ok false)) := by
  refine ⟨?_, ?_, ?_⟩
  · rcases h with hA | hB | hC
    · simp [hA.1]
    · simp [hB.1]
    · simp [hC.1]
  · intro i hdi
    rcases h with hA | hB | hC
    · have := hA.2.2.2.2.2.2.2.2 i
      rw [hdi] at this
      simp at this
    · obtain ⟨-, -, -, -, -, -, -, -, j, hj, hothers⟩ := hB
      by_cases hij : i = j
      · subst hij
        rw [hdi] at hj
        simp at hj
      · rcases hothers i hij with hx | hx <;> rw [hdi] at hx <;> simp at hx
    · exact ⟨hC.2.2.2.1, hC.2.2.2.2.1⟩
  · intro hdone hn
    have hC : SPhaseC e1 tok1 c := by
      rcases h with hA | hB | hC
      · obtain ⟨r, hr⟩ := hdone 0 hn
        have := hA.2.2.2.2.2.2.2.2 0
        rw [hr] at this
        simp at this
      · obtain ⟨-, -, -, -, -, -, -, -, j, hj, hothers⟩ := hB
        obtain ⟨r, hr⟩ := hdone 0 hn
        by_cases h0 : (0 : Nat) = j
        · rw [← h0] at hj
          rw [hr] at hj
          simp at hj
        · rcases hothers 0 h0 with hx | hx <;> rw [hr] at hx <;> simp at hx
      · exact hC
    obtain ⟨hrc, hse, hst, hce, hat, hlg, hng, hrs, j, hj, hothers⟩ := hC
    refine ⟨hrc, hce, hat, ⟨j, hj, ?_⟩, ?_⟩
    · intro i hi
      rcases hothers i hi with hx | hx | hx <;> rw [hx] <;> simp
    · intro i hin
      by_cases hij : i = j
      · subst hij
        exact Or.inl hj
      · obtain ⟨r, hr⟩ := hdone i hin
        rcases hothers i hij with hx | hx | hx
        · rw [hr] at hx
          simp at hx
        · rw [hr] at hx
          simp at hx
        · exact Or.inr hx
/-- What the key-cache invariant says about any configuration reached by
a full schedule: at most one fetch; every finished caller holds exactly
the lookup of its kid in the rebuilt map, which is installed; and once
every caller is finished, exactly one fetch happened. -/
theorem aInv_consequences (m0 : JwksMap) (u0 ttl : Int)
    (kids : Nat → Option String) (m1 : JwksMap) (n : Nat) (a : ACfg)
    (h : AInv m0 u0 ttl kids m1 [] a) :
    a.fetchCalls ≤ 1 ∧
    (∀ i r, a.tasks i = .done r →
      r = lookupResult m1 (kids i) ∧ a.core.JWKS = m1) ∧
    ((∀ i, i < n → ∃ r, a.tasks i = .done r) → 0 < n →
      a.fetchCalls = 1 ∧ a.core.JWKS = m1 ∧
      ∀ i, i < n → a.tasks i = .done (lookupResult m1 (kids i))) := by
  refine ⟨?_, ?_, ?_⟩
  · rcases h with hA | hB | hC
    · simp [hA.1]
    · simp [hB.1]
    · simp [hC.1]
  · intro i r hdi
    rcases h with hA | hB | hC
    · have := hA.2.2.2.2.2 i
      rw [hdi] at this
      simp at this
    · obtain ⟨-, -, -, -, -, j, hj, hothers⟩ := hB
      by_cases hij : i = j
      · subst hij
        rw [hdi] at hj
        simp at hj
      · rcases hothers i hij with hx | hx <;> rw [hdi] at hx <;> simp at hx
    · obtain ⟨-, hjw, -, -, -, -, -, htk⟩ := hC
      rcases htk i with hx | hx | hx | hx
      · rw [hdi] at hx
        simp at hx
      · rw [hdi] at hx
        simp at hx
      · rw [hdi] at hx
        simp at hx
      · rw [hdi] at hx
        have := ATask.done.inj hx
        exact ⟨this, hjw⟩
  · intro hdone hn
    have hC : APhaseC ttl kids m1 [] a := by
      rcases h with hA | hB | hC
      · obtain ⟨r, hr⟩ := hdone 0 hn
        have := hA.2.2.2.2.2 0
        rw [hr] at this
        simp at this
      · obtain ⟨-, -, -, -, -, j, hj, hothers⟩ := hB
        obtain ⟨r, hr⟩ := hdone 0 hn
        by_cases h0 : (0 : Nat) = j
        · rw [← h0] at hj
          rw [hr] at hj
          simp at hj
        · rcases hothers 0 h0 with hx | hx <;> rw [hr] at hx <;> simp at hx
      · exact hC
    obtain ⟨hfc, hjw, -, -, -, -, -, htk⟩ := hC
    refine ⟨hfc, hjw, ?_⟩
    intro i hin
    obtain ⟨r, hr⟩ := hdone i hin
    rcases htk i with hx | hx | hx | hx
    · rw [hr] at hx
      simp at hx
    · rw [hr] at hx
      simp at hx
    · rw [hr] at hx
      simp at hx
    · exact hx
/-- C1: single flight. For any number of concurrent callers and any
interleaving of an episode in which a refresh is required throughout (the
stale expiry e0 is inside the threshold and the cache last updated at u0
is beyond its TTL at every scheduled instant), the refreshed values stay
fresh (e1 outside the threshold; the whole schedule spans at most one
TTL), and the external calls succeed: at most one silentTokenRefresh and
at most one getJwks fetch are ever started; and when all n callers have
finished, exactly one outbound call was made on each side, every refresh
caller observed the installed refreshed credential (one returned true,
the rest false), and every getSigningKey caller finished with exactly the
lookup of its kid in the rebuilt key map. -/
theorem c1_single_flight (cv : Bool) (th e0 e1 : Int) (tok0 tok1 : String)
    (a0 : Option String) (sevs : List SEv) (n : Nat)
    (hsOK : ∀ ev ∈ sevs, sevOK th e0 e1 tok1 ev = true)
    (m0 : JwksMap) (u0 ttl : Int) (kids : Nat → Option String)
    (ks : List JWK) (m1 : JwksMap) (hm1 : runKeys ks [] = .ok m1)
    (aevs : List AEv) (haOK : ∀ ev ∈ aevs, aevOK ttl u0 ks ev = true)
    (haSpan : aSpanOK ttl aevs = true) :
    ∀ c a, c = sockRun cv th (sockInit e0 tok0 a0) sevs →
      a = aRun (aInit m0 u0 ttl kids) aevs →
      (c.refreshCalls ≤ 1 ∧
        (∀ i, c.tasks i = .done (.ok false) →
          c.credentialsExpiresAt = e1 ∧ c.authToken = some tok1) ∧
        ((∀ i, i < n → ∃ r, c.tasks i = .done r) → 0 < n →
          c.refreshCalls = 1 ∧ c.credentialsExpiresAt = e1 ∧
          c.authToken = some tok1 ∧
          (∃ j, c.tasks j = .done (.ok true) ∧
            ∀ i, i ≠ j → c.tasks i ≠ .done (.ok true)) ∧
          ∀ i, i < n → c.tasks i = .done (.ok true) ∨
            c.tasks i = .done (.ok false))) ∧
      (a.fetchCalls ≤ 1 ∧
        (∀ i r, a.tasks i = .done r →
          r = lookupResult m1 (kids i) ∧ a.core.JWKS = m1) ∧
        ((∀ i, i < n → ∃ r, a.tasks i = .done r) → 0 < n →
          a.fetchCalls = 1 ∧ a.core.JWKS = m1 ∧
          ∀ i, i < n → a.tasks i = .done (lookupResult m1 (kids i)))) := by
  intro c a hc ha
  subst hc
  subst ha
  constructor
  · exact sInv_consequences e0 e1 tok0 tok1 a0 n _
      (sInv_run cv th e0 e1 tok0 tok1 a0 sevs hsOK _
        (Or.inl ⟨rfl, rfl, rfl, rfl, rfl, rfl, rfl, rfl, fun _ => rfl⟩))
  · exact aInv_consequences m0 u0 ttl kids m1 n _
      (aInv_run m0 u0 ttl kids ks m1 hm1 aevs haOK haSpan _
        (Or.inl ⟨rfl, rfl, rfl, rfl, rfl, fun _ => rfl⟩))
/-- Witness for C1: five concurrent callers on each coordinator, one
outbound call each, refreshed values observed by everyone. -/
theorem c1_single_flight_witness :
    (sockRun false 10000 (sockInit 0 "a" (some "a"))
      c1SockSched).refreshCalls = 1 ∧
    (sockRun false 10000 (sockInit 0 "a" (some "a"))
      c1SockSched).credentialsExpiresAt = 1000000 ∧
    (aRun (aInit [("K1", "OLD")] 0 60000 (fun _ => some "K1"))
      c1CacheSched).fetchCalls = 1 ∧
    (aRun (aInit [("K1", "OLD")] 0 60000 (fun _ => some "K1"))
      c1CacheSched).core.JWKS = [("K1", certToPEM "c1")] ∧
    (aRun (aInit [("K1", "OLD")] 0 60000 (fun _ => some "K1"))
      c1CacheSched).tasks 3 =
        .done (lookupResult [("K1", certToPEM "c1")] (some "K1")) := by
  have h := c1_single_flight false 10000 0 1000000 "a" "b" (some "a")
    c1SockSched 5 (by decide)
    [("K1", "OLD")] 0 60000 (fun _ => some "K1")
    [⟨"RSA", "K1", "RS256", "sig", ["c1"], "", ""⟩]
    [("K1", certToPEM "c1")] (by simp [runKeys, passFilter, jwksSet])
    c1CacheSched (by decide) (by decide)
    (sockRun false 10000 (sockInit 0 "a" (some "a")) c1SockSched)
    (aRun (aInit [("K1", "OLD")] 0 60000 (fun _ => some "K1")) c1CacheSched)
    rfl rfl
  have hs := h.1.2.2 (by intro i hi; interval_cases i <;> exact ⟨_, rfl⟩)
    (by omega)
  have hA := h.2.2.2 (by intro i hi; interval_cases i <;> exact ⟨_, rfl⟩)
    (by omega)
  exact ⟨hs.1, hs.2.1, hA.1, hA.2.1, hA.2.2 3 (by omega)⟩
